import Mathlib

/-!
The destination resolver of TWScript

A shallow embedding of the destination-selector functions of `src/TWScript.cpp`
(`TWScript::radius_search`, `TWScript::archetype_search` and
`TWScript::get_target_objects`), of the two overloads of
`TWScript::get_qvar_value` and of the initialisation of `cScr_TWTweqSmooth`
(`compatible_animc`, the rate and bounds functions, `init_rotate_onoffctrl`,
`init_rotate`, `init_joints_onoffctrl`, `init_joints` and `init`), with the
properties the specification states about them.

Conventions of the embedding:

* a C string is the `List Char` of the characters before its terminating NUL;
  reading the character a pointer addresses is `List.headD s NUL`;
* an `object` is the `Int` it converts to (`int(obj)`);
* a `float` is an `F32`: a NaN, an infinity, or a finite value. Only the
  comparisons `<` and `>` of the source are used, and they are the IEEE ones
  (false as soon as one side is a NaN);
* the engine services and the C library calls the resolver makes are the fields
  of a `Host`; every call the resolver makes to an engine service is recorded,
  in order, in a list of `HostCall`; what the smoothing script reads from the
  engine and the script library are the fields of a `TweqHost`;
* a C array is a function of the index;
* a function has the result `none` where the code has no defined result (a read
  through a null pointer, the end of a function reached without a `return`).
-/

namespace TWScript

/-! ## Values -/

/-- Single precision values as far as comparing them goes. -/
inductive F32 where
  | nan : F32
  | ninf : F32
  | fin (q : ℚ) : F32
  | pinf : F32
  deriving DecidableEq

namespace F32

/-- The comparison `a < b` of two floats: false when either is a NaN. -/
def lt : F32 → F32 → Bool
  | nan, _ => false
  | _, nan => false
  | ninf, ninf => false
  | ninf, _ => true
  | fin _, ninf => false
  | fin a, fin b => decide (a < b)
  | fin _, pinf => true
  | pinf, _ => false

/-- The comparison `a > b` of two floats. -/
def gt (a b : F32) : Bool := lt b a

/-- The comparison `a == b` of two floats: false when either is a NaN. -/
def feq : F32 → F32 → Bool
  | ninf, ninf => true
  | fin a, fin b => decide (a = b)
  | pinf, pinf => true
  | _, _ => false

/-- The comparison `a <= b` of two floats. -/
def le (a b : F32) : Bool := lt a b || feq a b

/-- The comparison `a >= b` of two floats. -/
def ge (a b : F32) : Bool := gt a b || feq a b

/-- Whether the value is a NaN. -/
def isNaN : F32 → Bool
  | nan => true
  | _ => false

end F32

/-- A position, `cScrVec`. -/
structure cScrVec where
  x : F32
  y : F32
  z : F32
  deriving DecidableEq

/-- The two fields of `sScrMsg` the resolver reads: `from_` is the field
`from` (the object that caused the message) and `to_` the field `to` (the
object the script is on). -/
structure sScrMsg where
  from_ : Int
  to_ : Int
  deriving DecidableEq

/-- The terminating character of a C string. -/
def NUL : Char := Char.ofNat 0

/-! ## The host -/

/-- The engine services and library functions the resolver calls. None of them
is part of the repository.

* `GetObjectNamed` is `IObjectSystem::GetObjectNamed`;
* `Query arch flags` is `ITraitManager::Query`: `none` is a null query, `some q`
  a query that yields the objects of `q` in turn (`Done`/`Object`/`Next`);
* `Position` is `IObjectSrv::Position`;
* `Distance a b` is `(float)a.Distance(b)`;
* `strtof s` is the C library `strtof(s, &end)`: the value and `end - s`;
* `kTraitQueryChildren`, `kTraitQueryFull` are the query flag constants. -/
structure Host where
  GetObjectNamed : List Char → Int
  Query : Int → Nat → Option (List Int)
  Position : Int → cScrVec
  Distance : cScrVec → cScrVec → F32
  strtof : List Char → F32 × Nat
  kTraitQueryChildren : Nat
  kTraitQueryFull : Nat

/-- A call made to an engine service. -/
inductive HostCall where
  | GetObjectNamed (name : List Char) : HostCall
  | Query (arch : Int) (flags : Nat) : HostCall
  | Position (obj : Int) : HostCall
  deriving DecidableEq

/-- Whether a call is a hierarchy query. -/
def HostCall.isQuery : HostCall → Bool
  | HostCall.Query _ _ => true
  | _ => false

/-! ## Library string functions -/

/-- The C library `_stricmp`: compares the two strings character by character
after lower-casing, and returns the difference at the first place they differ
(the end of a string reads as NUL), 0 when there is none. -/
def _stricmp : List Char → List Char → Int
  | [], [] => 0
  | [], b :: _ => (NUL.toLower.toNat : Int) - (b.toLower.toNat : Int)
  | a :: _, [] => (a.toLower.toNat : Int) - (NUL.toLower.toNat : Int)
  | a :: as, b :: bs =>
    if a.toLower = b.toLower then _stricmp as bs
    else (a.toLower.toNat : Int) - (b.toLower.toNat : Int)

/-- The literal `"[me]"`. -/
def str_me : List Char := ['[', 'm', 'e', ']']

/-- The literal `"[source]"`. -/
def str_source : List Char := ['[', 's', 'o', 'u', 'r', 'c', 'e', ']']

/-! ## `TWScript::radius_search` -/

/-- The `while(*search)` loop of `radius_search`: the first `<` or `>` of the
string (`mode`) and the string after it (`*archetype = search + 1`); `none`
when the string has neither, which leaves `mode` at 0. -/
def radius_search_scan : List Char → Option (Char × List Char)
  | [] => none
  | c :: cs => if c = '<' ∨ c = '>' then some (c, cs) else radius_search_scan cs

/-- The function `TWScript::radius_search`. `none` is the return value `false`;
`some (radius, lessthan, archetype)` is the return value `true` with the three
outputs. (`!*archetype` tests the pointer that the loop has just set to
`search + 1`, which is not null, so once `mode` is set the first test passes.) -/
def radius_search (h : Host) (dest : List Char) : Option (F32 × Bool × List Char) :=
  match radius_search_scan dest with
  | none => none
  | some (mode, archetype) =>
    let radius := (h.strtof dest).1
    let endp := (h.strtof dest).2
    if endp = 0 ∨ dest.getD endp NUL ≠ mode then none
    else some (radius, decide (mode = '<'), archetype)

/-! ## `TWScript::archetype_search` -/

/-- The distance test of `archetype_search`:
`(lessthan && (distance < radius)) || (!lessthan && (distance > radius))`. -/
def distance_check (lessthan : Bool) (distance radius : F32) : Bool :=
  (lessthan && F32.lt distance radius) || (!lessthan && F32.gt distance radius)

/-- The `for(; !query -> Done(); query -> Next())` loop of `archetype_search`
over the objects the query yields, threading the match list and the call log. -/
def archetype_search_loop (h : Host) (do_radius : Bool) (from_pos : cScrVec) (radius : F32)
    (lessthan : Bool) : List Int → List Int × List HostCall → List Int × List HostCall
  | [], st => st
  | obj :: rest, (mtch, calls) =>
    if obj > 0 then
      if do_radius then
        let to_pos := h.Position obj
        let distance := h.Distance from_pos to_pos
        if distance_check lessthan distance radius then
          archetype_search_loop h do_radius from_pos radius lessthan rest
            (mtch ++ [obj], calls ++ [HostCall.Position obj])
        else
          archetype_search_loop h do_radius from_pos radius lessthan rest
            (mtch, calls ++ [HostCall.Position obj])
      else
        archetype_search_loop h do_radius from_pos radius lessthan rest (mtch ++ [obj], calls)
    else
      archetype_search_loop h do_radius from_pos radius lessthan rest (mtch, calls)

/-- The function `TWScript::archetype_search`: the match list afterwards and
the engine calls made, in order. -/
def archetype_search (h : Host) (mtch : List Int) (archetype : List Char) (do_full : Bool)
    (do_radius : Bool) (from_obj : Int) (radius : F32) (lessthan : Bool) :
    List Int × List HostCall :=
  let calls0 : List HostCall := if do_radius then [HostCall.Position from_obj] else []
  let from_pos := h.Position from_obj
  let arch := h.GetObjectNamed archetype
  let calls1 := calls0 ++ [HostCall.GetObjectNamed archetype]
  if arch ≤ 0 then
    let flags := if do_full then h.kTraitQueryChildren ||| h.kTraitQueryFull
                 else h.kTraitQueryChildren
    let calls2 := calls1 ++ [HostCall.Query arch flags]
    match h.Query arch flags with
    | some query =>
      archetype_search_loop h do_radius from_pos radius lessthan query (mtch, calls2)
    | none => (mtch, calls2)
  else (mtch, calls1)

/-! ## `TWScript::get_target_objects` -/

/-- The function `TWScript::get_target_objects`: the vector returned and the
engine calls made. The message pointer may be null (`none`); the result is
`none` where the code reads a field through a null `pMsg`. -/
def get_target_objects (h : Host) (dest : List Char) (pMsg : Option sScrMsg) :
    Option (List Int × List HostCall) :=
  if _stricmp dest str_me = 0 then
    match pMsg with
    | some m => some ([m.to_], [])
    | none => none
  else if _stricmp dest str_source = 0 then
    match pMsg with
    | some m => some ([m.from_], [])
    | none => none
  else if dest.headD NUL = '*' ∨ dest.headD NUL = '@' then
    some (archetype_search h [] (dest.drop 1) (decide (dest.headD NUL = '@'))
      false 0 (F32.fin 0) false)
  else
    match radius_search h dest with
    | some (radius, lessthan, archname) =>
      let realname :=
        if archname.headD NUL = '*' ∨ archname.headD NUL = '@' then archname.drop 1
        else archname
      match pMsg with
      | some m =>
        some (archetype_search h [] realname (decide (archname.headD NUL ≠ '*'))
          true m.to_ radius lessthan)
      | none => none
    | none =>
      let obj := h.GetObjectNamed dest
      some (if obj ≠ 0 then [obj] else [], [HostCall.GetObjectNamed dest])

/-! ## `TWScript::get_qvar_value` -/

/-- The quest variable service `IQuestSrv`, which is not part of the
repository: `Exists` tells whether a variable exists, `Get` reads it. -/
structure QuestSrv where
  Exists : List Char → Bool
  Get : List Char → Int

/-- The function `TWScript::get_qvar_value(const char *qvar, long def_val)`. -/
def get_qvar_value (pQS : QuestSrv) (qvar : List Char) (def_val : Int) : Int :=
  if pQS.Exists qvar then pQS.Get qvar else def_val

/-- The function `TWScript::get_qvar_value(const char *qvar, float def_val)`.
`Alloc n` tells whether `g_pMalloc -> Alloc(n)` returns a block. The body
returns `def_val` when it does not; otherwise it copies the string and ends
there: control reaches the closing brace without a `return`, so the call has
no defined value (`none`). The quest service is not called. -/
def get_qvar_value_float (Alloc : Nat → Bool) (qvar : List Char) (def_val : F32) :
    Option F32 :=
  if Alloc (qvar.length + 1) = false then some def_val
  else none

/-! ## `cScr_TWTweqSmooth::compatible_animc` -/

/-- The bits of a 32 bit `int`, as a natural number (two's complement). -/
def int_bits (v : Int) : Nat := (v % 2 ^ 32).toNat

/-- The flag `kNoLimit` of `eAnimCFlags`. -/
def kNoLimit : Nat := 0x01

/-- The flag `kSim` of `eAnimCFlags`. -/
def kSim : Nat := 0x02

/-- The flag `kWrap` of `eAnimCFlags`. -/
def kWrap : Nat := 0x04

/-- The flag `k1Bounce` of `eAnimCFlags`. -/
def k1Bounce : Nat := 0x08

/-- The flag `kSimSmall` of `eAnimCFlags`. -/
def kSimSmall : Nat := 0x10

/-- The flag `kSimLarge` of `eAnimCFlags`. -/
def kSimLarge : Nat := 0x20

/-- The flag `kOffScreen` of `eAnimCFlags`. -/
def kOffScreen : Nat := 0x40

/-- The function `cScr_TWTweqSmooth::compatible_animc`:
`!( animc & kNoLimit || animc & kWrap)`. -/
def compatible_animc (animc : Int) : Bool :=
  !(decide (int_bits animc &&& kNoLimit ≠ 0) || decide (int_bits animc &&& kWrap ≠ 0))

/-! ## `cScr_TWTweqSmooth`: the state and what it reads -/

/-- The C library `strcasecmp`, which compares as `_stricmp` does. -/
def strcasecmp (a b : List Char) : Int := _stricmp a b

/-- The enumerator `RotAxisMax`: the number of rotation axes. -/
def RotAxisMax : Nat := 3

/-- The enumerator `JointCount`: the number of joints. -/
def JointCount : Nat := 6

/-- The enumerator `MinRate` of `RateMode`. -/
def MinRate : Nat := 0

/-- The enumerator `MaxRate` of `RateMode`. -/
def MaxRate : Nat := 1

/-- The table `cScr_TWTweqSmooth::axis_names`. -/
def axis_names (axis : Nat) : List Char :=
  match axis with
  | 0 => "x rate-low-high".toList
  | 1 => "y rate-low-high".toList
  | _ => "z rate-low-high".toList

/-- The table `cScr_TWTweqSmooth::joint_names`. -/
def joint_names (joint : Nat) : List Char :=
  match joint with
  | 0 => "    rate-low-high".toList
  | 1 => "    rate-low-high2".toList
  | 2 => "    rate-low-high3".toList
  | 3 => "    rate-low-high4".toList
  | 4 => "    rate-low-high5".toList
  | _ => "    rate-low-high6".toList

/-- The decimal digit of a number below ten, as `%d` prints it. -/
def digitChar (n : Nat) : Char := Char.ofNat (48 + n)

/-- What the smoothing script reads from the engine and from the script
library, for the object it is on. None of it is part of the repository.

* `GetObjectParams` is the design note of the object, `none` when it has none;
* `GetParamString`, `GetParamFloat`, `GetParamBool`, `GetParamInt` read a
  parameter of a design note, with a default;
* `Possessed name` is `IPropertySrv::Possessed(ObjId(), name)`;
* `GetVector name field` and `GetInt name field` are `IPropertySrv::Get(prop,
  ObjId(), name, field)` read as a vector and as an `int`;
* `strtol s` is the C library `strtol(s, &end, 10)`: the value and `end - s`;
* `SetTimedMessage rate` is the timer handle `SetTimedMessage` returns. -/
structure TweqHost where
  GetObjectParams : Option (List Char)
  GetParamString : Option (List Char) → List Char → Option (List Char) → Option (List Char)
  GetParamFloat : Option (List Char) → List Char → F32 → F32
  GetParamBool : Option (List Char) → List Char → Bool → Bool
  GetParamInt : Option (List Char) → List Char → Int → Int
  Possessed : List Char → Bool
  GetVector : List Char → List Char → cScrVec
  GetInt : List Char → List Char → Int
  strtol : List Char → Int × Nat
  SetTimedMessage : Int → Option Nat

/-- The member variables of `cScr_TWTweqSmooth`. The two-dimensional arrays
`rotate_rates` and `joint_rates` are read as `rates index mode`. -/
structure cScr_TWTweqSmooth where
  warnings : Bool
  timer : Option Nat
  timer_rate : Int
  min_rate : F32
  max_rate : F32
  do_tweq_rotate : Bool
  axis_smooth : Nat → Bool
  rotate_rates : Nat → Nat → F32
  do_tweq_joints : Bool
  joint_smooth : Nat → Bool
  joint_rates : Nat → Nat → F32

/-- Writing `v` at `rates[index][mode]`. -/
def setRate (rates : Nat → Nat → F32) (index mode : Nat) (v : F32) : Nat → Nat → F32 :=
  Function.update rates index (Function.update (rates index) mode v)

/-! ## Rate and bounds utility functions -/

/-- The function `cScr_TWTweqSmooth::get_rotate_rate`. -/
def get_rotate_rate (h : TweqHost) (axis : Nat) : F32 :=
  (h.GetVector "CfgTweqRotate".toList (axis_names axis)).x

/-- The function `cScr_TWTweqSmooth::valid_rotate_bounds`:
`low >= 0.0f && high > low`. -/
def valid_rotate_bounds (h : TweqHost) (axis : Nat) : Bool :=
  let low := (h.GetVector "CfgTweqRotate".toList (axis_names axis)).y
  let high := (h.GetVector "CfgTweqRotate".toList (axis_names axis)).z
  F32.ge low (F32.fin 0) && F32.gt high low

/-- The function `cScr_TWTweqSmooth::get_joint_rate`. -/
def get_joint_rate (h : TweqHost) (joint : Nat) : F32 :=
  (h.GetVector "CfgTweqJoints".toList (joint_names joint)).x

/-- The function `cScr_TWTweqSmooth::get_rate_param`. -/
def get_rate_param (h : TweqHost) (design_note : Option (List Char)) (cfgname : List Char)
    (default_value minimum : F32) : F32 :=
  let value := h.GetParamFloat design_note cfgname default_value
  if F32.lt value minimum then minimum else value

/-! ## Initialisation -/

/-- The `while(*axes)` loop of `init_rotate_onoffctrl`, threading `axis_smooth`
and `count`. -/
def init_rotate_onoffctrl_loop : List Char → (Nat → Bool) × Int → (Nat → Bool) × Int
  | [], st => st
  | c :: rest, (axis_smooth, count) =>
    let current := c.toLower
    if 'x' ≤ current ∧ current ≤ 'z' then
      if axis_smooth (current.toNat - 'x'.toNat) = false then
        init_rotate_onoffctrl_loop rest
          (Function.update axis_smooth (current.toNat - 'x'.toNat) true, count + 1)
      else init_rotate_onoffctrl_loop rest (axis_smooth, count)
    else init_rotate_onoffctrl_loop rest (axis_smooth, count)

/-- The function `cScr_TWTweqSmooth::init_rotate_onoffctrl`: `axis_smooth`
afterwards and the value returned. `axes` is `none` for a null pointer. -/
def init_rotate_onoffctrl (axis_smooth : Nat → Bool) (axes : Option (List Char)) :
    (Nat → Bool) × Int :=
  match axes with
  | none => (axis_smooth, 0)
  | some [] => (axis_smooth, 0)
  | some (c :: cs) =>
    let all := decide (strcasecmp (c :: cs) "all".toList = 0)
    let st := (List.range RotAxisMax).foldl
      (fun (st : (Nat → Bool) × Int) axis =>
        (Function.update st.1 axis all, if all then st.2 + 1 else st.2))
      (axis_smooth, 0)
    if !all then init_rotate_onoffctrl_loop (c :: cs) st else st

/-- One turn of the `for` loop of `init_rotate` over the axes, threading
`axis_smooth`, `rotate_rates` and `set_count`. -/
def init_rotate_axis (h : TweqHost)
    (st : (Nat → Bool) × (Nat → Nat → F32) × Int) (axis : Nat) :
    (Nat → Bool) × (Nat → Nat → F32) × Int :=
  if st.1 axis then
    let rotate_rates := setRate st.2.1 axis MaxRate (get_rotate_rate h axis)
    if F32.le (rotate_rates axis MaxRate) (rotate_rates axis MinRate) then
      (Function.update st.1 axis false, rotate_rates, st.2.2 - 1)
    else if !valid_rotate_bounds h axis then
      (Function.update st.1 axis false, rotate_rates, st.2.2 - 1)
    else (st.1, rotate_rates, st.2.2)
  else st

/-- The function `cScr_TWTweqSmooth::init_rotate`. Messages written to the
monolog are left out. -/
def init_rotate (h : TweqHost) (s : cScr_TWTweqSmooth) (design_note : Option (List Char)) :
    cScr_TWTweqSmooth :=
  let axis := h.GetParamString design_note "TWTweqSmoothRotate".toList (some "all".toList)
  let r := match axis with
    | some a => init_rotate_onoffctrl s.axis_smooth (some a)
    | none => (s.axis_smooth, 0)
  let axis_smooth := r.1
  let set_count := r.2
  let can_smooth :=
    if h.Possessed "CfgTweqRotate".toList then
      compatible_animc (h.GetInt "CfgTweqRotate".toList "AnimC".toList)
    else false
  let do_tweq_rotate := can_smooth && h.Possessed "CfgTweqRotate".toList &&
    h.Possessed "StTweqRotate".toList && decide (set_count ≠ 0)
  if do_tweq_rotate then
    let rates0 := setRate s.rotate_rates 0 MinRate
      (get_rate_param h design_note "TWTweqSmoothRotateXMin".toList s.min_rate (F32.fin 0))
    let rates1 := setRate rates0 1 MinRate
      (get_rate_param h design_note "TWTweqSmoothRotateYMin".toList s.min_rate (F32.fin 0))
    let rates2 := setRate rates1 2 MinRate
      (get_rate_param h design_note "TWTweqSmoothRotateZMin".toList s.min_rate (F32.fin 0))
    let st := (List.range RotAxisMax).foldl (init_rotate_axis h) (axis_smooth, rates2, set_count)
    { s with
      do_tweq_rotate := decide (st.2.2 ≠ 0)
      axis_smooth := st.1
      rotate_rates := st.2.1 }
  else
    { s with
      do_tweq_rotate := false
      axis_smooth := axis_smooth }

/-- The `while(*cont)` loop of `init_joints_onoffctrl`, entered with `*cont`
not NUL, threading `joint_smooth` and `count`. The first argument bounds the
number of turns; `none` is returned when it is used up. -/
def init_joints_onoffctrl_loop (h : TweqHost) :
    Nat → List Char → (Nat → Bool) × Int → Option ((Nat → Bool) × Int)
  | 0, _, _ => none
  | fuel + 1, joints, (joint_smooth, count) =>
    let joint := (h.strtol joints).1
    let cont := joints.drop (h.strtol joints).2
    if (h.strtol joints).2 = 0 then some (joint_smooth, count)
    else
      let st :=
        if joint > 0 ∧ joint ≤ (JointCount : Int) then
          (Function.update joint_smooth (joint - 1).toNat true, count + 1)
        else (joint_smooth, count)
      if cont ≠ [] then init_joints_onoffctrl_loop h fuel (cont.drop 1) st
      else some st

/-- One turn of the second `for` loop of `init_joints_onoffctrl`, which
disables the selected joints whose AnimC flags are not compatible. -/
def init_joints_onoffctrl_check (h : TweqHost) (st : (Nat → Bool) × Int) (joint : Nat) :
    (Nat → Bool) × Int :=
  if st.1 joint then
    let joint_buffer := "Joint".toList ++ [digitChar (joint + 1)] ++ "AnimC".toList
    if !compatible_animc (h.GetInt "CfgTweqJoints".toList joint_buffer) then
      (Function.update st.1 joint false, st.2 - 1)
    else st
  else st

/-- The function `cScr_TWTweqSmooth::init_joints_onoffctrl`: `joint_smooth`
afterwards and the value returned. `joints` is `none` for a null pointer. The
`while` loop is given as many turns as the string has characters, which is
more than it can take. -/
def init_joints_onoffctrl (h : TweqHost) (joint_smooth : Nat → Bool)
    (joints : Option (List Char)) : Option ((Nat → Bool) × Int) :=
  match joints with
  | none => some (joint_smooth, 0)
  | some [] => some (joint_smooth, 0)
  | some (c :: cs) =>
    let all := decide (strcasecmp (c :: cs) "all".toList = 0)
    let st0 := (List.range JointCount).foldl
      (fun (st : (Nat → Bool) × Int) joint =>
        (Function.update st.1 joint all, if all then st.2 + 1 else st.2))
      (joint_smooth, 0)
    let parsed :=
      if !all then init_joints_onoffctrl_loop h (c :: cs).length (c :: cs) st0
      else some st0
    match parsed with
    | none => none
    | some st1 =>
      if h.Possessed "CfgTweqJoints".toList then
        some ((List.range JointCount).foldl (init_joints_onoffctrl_check h) st1)
      else some st1

/-- One turn of the `for` loop of `init_joints` over the joints, threading
`joint_rates`. The comment `Check it is smoothable.` is followed by no code. -/
def init_joints_joint (h : TweqHost) (design_note : Option (List Char)) (min_rate : F32)
    (joint_smooth : Nat → Bool) (joint_rates : Nat → Nat → F32) (joint : Nat) :
    Nat → Nat → F32 :=
  if joint_smooth joint then
    let cfg_buffer := "TWTweqSmoothJoint".toList ++ [digitChar (joint + 1)] ++ "Min".toList
    let rates := setRate joint_rates joint MinRate
      (get_rate_param h design_note cfg_buffer min_rate (F32.fin 0))
    setRate rates joint MaxRate (get_joint_rate h joint)
  else joint_rates

/-- The function `cScr_TWTweqSmooth::init_joints`. Messages written to the
monolog are left out. -/
def init_joints (h : TweqHost) (s : cScr_TWTweqSmooth) (design_note : Option (List Char)) :
    Option cScr_TWTweqSmooth :=
  let joints := h.GetParamString design_note "TWTweqSmoothJoints".toList (some "all".toList)
  let r := match joints with
    | some j => init_joints_onoffctrl h s.joint_smooth (some j)
    | none => some (s.joint_smooth, 0)
  match r with
  | none => none
  | some (joint_smooth, set_count) =>
    let do_tweq_joints := h.Possessed "CfgTweqJoints".toList &&
      h.Possessed "StTweqJoints".toList && decide (set_count ≠ 0)
    if do_tweq_joints then
      some { s with
        do_tweq_joints := true
        joint_smooth := joint_smooth
        joint_rates := (List.range JointCount).foldl
          (init_joints_joint h design_note s.min_rate joint_smooth) s.joint_rates }
    else
      some { s with
        do_tweq_joints := false
        joint_smooth := joint_smooth }

/-- The function `cScr_TWTweqSmooth::start_timer`. -/
def start_timer (h : TweqHost) (s : cScr_TWTweqSmooth) : cScr_TWTweqSmooth :=
  { s with timer := h.SetTimedMessage s.timer_rate }

/-- The function `cScr_TWTweqSmooth::clear_timer`. -/
def clear_timer (s : cScr_TWTweqSmooth) : cScr_TWTweqSmooth :=
  { s with timer := none }

/-- The float `0.1f`: the single precision value nearest to one tenth. -/
def f_0_1 : F32 := F32.fin (13421773 / 134217728)

/-- The function `cScr_TWTweqSmooth::init`. Messages written to the monolog
are left out. -/
def init (h : TweqHost) (s : cScr_TWTweqSmooth) : Option cScr_TWTweqSmooth :=
  let s0 := clear_timer s
  match h.GetObjectParams with
  | none => some s0
  | some note =>
    let design_note := some note
    let warnings := h.GetParamBool design_note "TWTweqSmoothWarn".toList true
    let timer_rate := h.GetParamInt design_note "TWTweqSmoothTimerRate".toList 250
    let min_rate := get_rate_param h design_note "TWTweqSmoothMinRate".toList f_0_1 (F32.fin 0)
    let max_rate :=
      get_rate_param h design_note "TWTweqSmoothMaxRate".toList (F32.fin 10) min_rate
    let s1 := { s0 with
      warnings := warnings
      timer_rate := timer_rate
      min_rate := min_rate
      max_rate := max_rate }
    let s2 := init_rotate h s1 design_note
    match init_joints h s2 design_note with
    | none => none
    | some s3 =>
      if s3.do_tweq_rotate || s3.do_tweq_joints then some (start_timer h s3)
      else some s3

end TWScript

namespace TWScript

/-! ## Reading the results -/

/-- The objects a hierarchy query yields: none for a null query. -/
def queryObjects (h : Host) (arch : Int) (flags : Nat) : List Int :=
  (h.Query arch flags).getD []

/-- The flags of the direct-children query. -/
def directFlags (h : Host) : Nat := h.kTraitQueryChildren

/-- The flags of the full (transitive) query: the children flag with the
full bit added. -/
def fullFlags (h : Host) : Nat := h.kTraitQueryChildren ||| h.kTraitQueryFull

/-- The flags `archetype_search` builds. -/
def queryFlags (h : Host) (do_full : Bool) : Nat :=
  if do_full then fullFlags h else directFlags h

/-- The distance the code measures from object `origin` to object `c`. -/
def distanceFrom (h : Host) (origin c : Int) : F32 :=
  h.Distance (h.Position origin) (h.Position c)

/-- What the loop of `archetype_search` keeps: concrete objects that, in a
radius search, pass the distance test. -/
def archetype_keep (h : Host) (do_radius : Bool) (from_pos : cScrVec) (radius : F32)
    (lessthan : Bool) (obj : Int) : Bool :=
  decide (obj > 0) &&
    (!do_radius || distance_check lessthan (h.Distance from_pos (h.Position obj)) radius)

/-- Two strings are equal ignoring letter case. -/
def eqIgnoreCase (a b : List Char) : Prop := a.map Char.toLower = b.map Char.toLower

instance (a b : List Char) : Decidable (eqIgnoreCase a b) := by
  unfold eqIgnoreCase; infer_instance

/-- The destination is handled by the radius branch of `get_target_objects`
with the outputs `radius`, `lessthan` and `spec` of `radius_search`: it is a C
string, does not start with `*` or `@`, and `radius_search` returns true on it. -/
def IsRadiusForm (h : Host) (dest : List Char) (radius : F32) (lessthan : Bool)
    (spec : List Char) : Prop :=
  NUL ∉ dest ∧ dest.headD NUL ≠ '*' ∧ dest.headD NUL ≠ '@' ∧
    radius_search h dest = some (radius, lessthan, spec)

/-- The destination is handled by the last branch of `get_target_objects`, as
a plain name: it is a C string that is neither `[me]` nor `[source]` in any
letter case, does not start with `*` or `@`, and is not a radius search. -/
def IsPlainName (h : Host) (dest : List Char) : Prop :=
  NUL ∉ dest ∧ ¬ eqIgnoreCase dest str_me ∧ ¬ eqIgnoreCase dest str_source ∧
    dest.headD NUL ≠ '*' ∧ dest.headD NUL ≠ '@' ∧ radius_search h dest = none

instance (h : Host) (dest : List Char) (radius : F32) (lessthan : Bool) (spec : List Char) :
    Decidable (IsRadiusForm h dest radius lessthan spec) := by
  unfold IsRadiusForm; infer_instance

instance (h : Host) (dest : List Char) : Decidable (IsPlainName h dest) := by
  unfold IsPlainName; infer_instance

/-- Whether a call asks for the position of an object. -/
def HostCall.isPosition : HostCall → Bool
  | HostCall.Position _ => true
  | _ => false

/-- The characters `strtof` reads in `s` hold no `<` and no `>`, as is the case
of every numeral the C library accepts. -/
def StrtofReadsNoComparator (h : Host) (s : List Char) : Prop :=
  ∀ i, i < (h.strtof s).2 → s.getD i NUL ≠ '<' ∧ s.getD i NUL ≠ '>'

instance (h : Host) (s : List Char) : Decidable (StrtofReadsNoComparator h s) := by
  unfold StrtofReadsNoComparator; infer_instance

/-! ## The resolver as the specification words it -/

/-- Specification, section 4.1, `ArchetypeMembers(name, transitive)`: the name
is resolved by the directory; when it resolves to a concrete object the result
is empty; otherwise the direct children (`transitive = false`) or the full
descendant closure (`transitive = true`) are visited and the concrete ones
kept, in traversal order. -/
def Spec.ArchetypeMembers (h : Host) (name : List Char) (transitive : Bool) : List Int :=
  if 0 < h.GetObjectNamed name then []
  else
    (queryObjects h (h.GetObjectNamed name)
      (if transitive then h.kTraitQueryChildren ||| h.kTraitQueryFull
        else h.kTraitQueryChildren)).filter (fun o => decide (0 < o))

/-- Specification, section 4.1, `RadiusFiltered(inner, radius, comparison,
origin)`: a candidate is kept when the comparison is `LessThan` and its
distance from the origin is below the radius, or the comparison is
`GreaterThan` and its distance is above the radius. -/
def Spec.RadiusFiltered (h : Host) (inner : List Int) (radius : F32) (lessthan : Bool)
    (origin : Int) : List Int :=
  inner.filter (fun c =>
    if lessthan then F32.lt (distanceFrom h origin c) radius
    else F32.gt (distanceFrom h origin c) radius)

/-! ## An example world

The archetype `Chest` has id -5; its direct children are the concrete objects
3 and 4 and the archetype -2, and its further descendants the concrete object 9
(the full query also yields 0). `Door` is the concrete object 7. The objects
lie on the x axis: object 2 at 0, object 3 at 1, object 4 at 5 and object 9
at 7. -/

/-- The name `Chest`. -/
def str_Chest : List Char := ['C', 'h', 'e', 's', 't']

/-- The name `Door`. -/
def str_Door : List Char := ['D', 'o', 'o', 'r']

/-- A point of the x axis. -/
def onX (q : ℚ) : cScrVec := ⟨F32.fin q, F32.fin 0, F32.fin 0⟩

/-- The example world. Its `strtof` reads the numerals `5`, `5.0`, `5.00` and
`nan` and nothing else; its `Distance` is the distance from the origin to a point of
the x axis at or after it. -/
def exampleHost : Host where
  GetObjectNamed := fun n => if n = str_Chest then -5 else if n = str_Door then 7 else 0
  Query := fun a f =>
    if a = -5 then (if f = 1 then some [3, -2, 4] else some [3, -2, 4, 9, 0]) else none
  Position := fun o =>
    if o = 3 then onX 1 else if o = 4 then onX 5 else if o = 9 then onX 7 else onX 0
  Distance := fun a b => if a = onX 0 then b.x else F32.nan
  strtof := fun s =>
    match s with
    | '5' :: '.' :: '0' :: '0' :: _ => (F32.fin 5, 4)
    | '5' :: '.' :: '0' :: _ => (F32.fin 5, 3)
    | '5' :: _ => (F32.fin 5, 1)
    | 'n' :: 'a' :: 'n' :: _ => (F32.nan, 3)
    | _ => (F32.fin 0, 0)
  kTraitQueryChildren := 1
  kTraitQueryFull := 2

/-- The destination `5<Chest`. -/
def str_5_lt_Chest : List Char := '5' :: '<' :: str_Chest

/-- The destination `5>Chest`. -/
def str_5_gt_Chest : List Char := '5' :: '>' :: str_Chest

/-- The destination `nan<Chest`. -/
def str_nan_lt_Chest : List Char := 'n' :: 'a' :: 'n' :: '<' :: str_Chest

/-- The destination `nan>Chest`. -/
def str_nan_gt_Chest : List Char := 'n' :: 'a' :: 'n' :: '>' :: str_Chest

/-- The destination `5>*Chest`. -/
def str_5_gt_star_Chest : List Char := '5' :: '>' :: '*' :: str_Chest

/-- The destination `5<Door`. -/
def str_5_lt_Door : List Char := '5' :: '<' :: str_Door

/-- The destination `NoSuchObject`. -/
def str_NoSuchObject : List Char :=
  ['N', 'o', 'S', 'u', 'c', 'h', 'O', 'b', 'j', 'e', 'c', 't']

/-- The destination `5.00<Chest`. -/
def str_5_00_lt_Chest : List Char := '5' :: '.' :: '0' :: '0' :: '<' :: str_Chest

/-- The destination `5 <Chest`, with a space before the comparator. -/
def str_5_space_lt_Chest : List Char := '5' :: ' ' :: '<' :: str_Chest

/-- The destination `*5<Chest`. -/
def str_star_5_lt_Chest : List Char := '*' :: str_5_lt_Chest

/-- The name `Ghost`, which names nothing. -/
def str_Ghost : List Char := ['G', 'h', 'o', 's', 't']

/-- The destination `5<Ghost`. -/
def str_5_lt_Ghost : List Char := '5' :: '<' :: str_Ghost

/-- A second world, with odd names. An archetype is named `5<Chest` and has id
-6; its direct children are the concrete objects 11 and 12 and the archetype
-3, and the full query yields the concrete object 13 as well. A concrete object,
7, is named `*5<Chest`. No other name is known. The hierarchy query of id 0
yields the concrete object 8. Every object is at the origin. -/
def oddHost : Host where
  GetObjectNamed := fun n =>
    if n = str_5_lt_Chest then -6 else if n = str_star_5_lt_Chest then 7 else 0
  Query := fun a f =>
    if a = -6 then (if f = 1 then some [11, -3, 12] else some [11, -3, 12, 13])
    else if a = 0 then some [8] else none
  Position := fun _ => onX 0
  Distance := fun a b => if a = onX 0 then b.x else F32.nan
  strtof := exampleHost.strtof
  kTraitQueryChildren := 1
  kTraitQueryFull := 2

/-- The variable name `spd`. -/
def str_spd : List Char := ['s', 'p', 'd']

/-- The expression `spd/10`. -/
def str_spd_div_10 : List Char := ['s', 'p', 'd', '/', '1', '0']

/-- The expression `missing/10`. -/
def str_missing_div_10 : List Char :=
  ['m', 'i', 's', 's', 'i', 'n', 'g', '/', '1', '0']

/-- A variable store in which `spd` holds 55 and no other variable exists. -/
def exampleQuests : QuestSrv where
  Exists := fun n => decide (n = str_spd)
  Get := fun n => if n = str_spd then 55 else 0

/-- An allocator that always returns a block. -/
def allocAlways : Nat → Bool := fun _ => true

/-- Whether a character of the string selects the axis `i`: its lower case
form lies between `x` and `z` and is at distance `i` from `x`. -/
def axisHit (axes : List Char) (i : Nat) : Bool :=
  axes.any (fun c =>
    decide ('x' ≤ c.toLower ∧ c.toLower ≤ 'z') && decide (c.toLower.toNat - 'x'.toNat = i))

/-- The parameter value `X,Z`. -/
def str_X_Z : List Char := ['X', ',', 'Z']

/-- The parameter value `none`. -/
def str_none : List Char := ['n', 'o', 'n', 'e']

/-- The parameter value `All`. -/
def str_All : List Char := ['A', 'l', 'l']

/-- The parameter value `1,1`. -/
def str_1_1 : List Char := ['1', ',', '1']

/-- The parameter value `2,3`. -/
def str_2_3 : List Char := ['2', ',', '3']

/-- The destination `5<`. -/
def str_5_lt : List Char := ['5', '<']

/-- The number of entries below `n` of an array of flags that are set. -/
def countSet (flags : Nat → Bool) (n : Nat) : Nat :=
  ((List.range n).filter (fun i => flags i)).length

/-- The name of the AnimC field of a joint, `Joint%dAnimC` with the number of
the joint counted from 1. -/
def jointAnimCName (joint : Nat) : List Char :=
  "Joint".toList ++ [digitChar (joint + 1)] ++ "AnimC".toList

/-- An example object for the smoothing script. Its design note sets nothing,
so every parameter reads as its default. It has every property. Its rotation
rate is 5 about x and z and 0 about y; its bounds are 0 to 90 about x and y
and 90 to 90 about z; the AnimC of its rotation has no flag set. Its first
joint has rate 0 and the others rate 5; the AnimC of its second joint has
`kWrap` set, that of the other joints no flag. Its `strtol` reads one decimal
digit from 1 to 7. -/
def exampleTweq : TweqHost where
  GetObjectParams := some []
  GetParamString := fun _ _ d => d
  GetParamFloat := fun _ _ d => d
  GetParamBool := fun _ _ d => d
  GetParamInt := fun _ _ d => d
  Possessed := fun _ => true
  GetVector := fun name field =>
    if name = "CfgTweqRotate".toList then
      (if field = axis_names 0 then ⟨F32.fin 5, F32.fin 0, F32.fin 90⟩
       else if field = axis_names 1 then ⟨F32.fin 0, F32.fin 0, F32.fin 90⟩
       else ⟨F32.fin 5, F32.fin 90, F32.fin 90⟩)
    else
      (if field = joint_names 0 then ⟨F32.fin 0, F32.fin 0, F32.fin 90⟩
       else ⟨F32.fin 5, F32.fin 0, F32.fin 90⟩)
  GetInt := fun name field =>
    if name = "CfgTweqJoints".toList ∧ field = jointAnimCName 1 then 4 else 0
  strtol := fun s =>
    match s with
    | '1' :: _ => (1, 1)
    | '2' :: _ => (2, 1)
    | '3' :: _ => (3, 1)
    | '4' :: _ => (4, 1)
    | '5' :: _ => (5, 1)
    | '6' :: _ => (6, 1)
    | '7' :: _ => (7, 1)
    | _ => (0, 0)
  SetTimedMessage := fun _ => some 1

/-- The example object with a design note that sets the minimum rate of the x
axis, and the default minimum rate, to `nan`. -/
def nanTweq : TweqHost where
  GetObjectParams := some []
  GetParamString := fun _ _ d => d
  GetParamFloat := fun _ name d =>
    if name = "TWTweqSmoothRotateXMin".toList ∨ name = "TWTweqSmoothMinRate".toList
    then F32.nan else d
  GetParamBool := fun _ _ d => d
  GetParamInt := fun _ _ d => d
  Possessed := fun _ => true
  GetVector := exampleTweq.GetVector
  GetInt := exampleTweq.GetInt
  strtol := exampleTweq.strtol
  SetTimedMessage := fun _ => some 1

/-- The example object with a design note that sets the default minimum rate
to 2 and the default maximum rate to 1, and with `kNoLimit` set in the AnimC of
its rotation. -/
def noLimitTweq : TweqHost where
  GetObjectParams := some []
  GetParamString := fun _ _ d => d
  GetParamFloat := fun _ name d =>
    if name = "TWTweqSmoothMinRate".toList then F32.fin 2
    else if name = "TWTweqSmoothMaxRate".toList then F32.fin 1 else d
  GetParamBool := fun _ _ d => d
  GetParamInt := fun _ _ d => d
  Possessed := fun _ => true
  GetVector := exampleTweq.GetVector
  GetInt := fun name field =>
    if name = "CfgTweqRotate".toList ∧ field = "AnimC".toList then 1
    else exampleTweq.GetInt name field
  strtol := exampleTweq.strtol
  SetTimedMessage := fun _ => some 1

/-- A state of the script before initialisation: nothing is smoothed, every
rate is 0 but the default minimum rate, 1, and the default maximum rate, 10. -/
def exampleState : cScr_TWTweqSmooth where
  warnings := false
  timer := none
  timer_rate := 250
  min_rate := F32.fin 1
  max_rate := F32.fin 10
  do_tweq_rotate := false
  axis_smooth := fun _ => false
  rotate_rates := fun _ _ => F32.fin 0
  do_tweq_joints := false
  joint_smooth := fun _ => false
  joint_rates := fun _ _ => F32.fin 0

/-- An example message: sent from object 1 to object 2. -/
def exampleMsg : sScrMsg := ⟨1, 2⟩

/-! ## Lemmas on the loop -/

theorem archetype_search_loop_fst (h : Host) (do_radius : Bool) (from_pos : cScrVec)
    (radius : F32) (lessthan : Bool) (q : List Int) (mtch : List Int) (calls : List HostCall) :
    (archetype_search_loop h do_radius from_pos radius lessthan q (mtch, calls)).1 =
      mtch ++ q.filter (archetype_keep h do_radius from_pos radius lessthan) := by
  induction q generalizing mtch calls with
  | nil => simp [archetype_search_loop]
  | cons obj rest ih =>
    unfold archetype_search_loop
    dsimp only
    split_ifs with hpos hr hd <;> rw [ih] <;> simp_all [archetype_keep]

theorem archetype_search_loop_snd (h : Host) (do_radius : Bool) (from_pos : cScrVec)
    (radius : F32) (lessthan : Bool) (q : List Int) (mtch : List Int) (calls : List HostCall) :
    (archetype_search_loop h do_radius from_pos radius lessthan q (mtch, calls)).2 =
      calls ++ (q.filter (fun o => decide (o > 0) && do_radius)).map HostCall.Position := by
  induction q generalizing mtch calls with
  | nil => simp [archetype_search_loop]
  | cons obj rest ih =>
    unfold archetype_search_loop
    dsimp only
    split_ifs with hpos hr hd <;> rw [ih] <;> simp_all

/-! ## Lemmas on characters and `_stricmp` -/

theorem char_toNat_inj {c d : Char} (hcd : c.toNat = d.toNat) : c = d := by
  apply Char.eq_of_val_eq
  cases c with | mk cv ch => cases d with | mk dv dh =>
  simp only [Char.toNat] at hcd
  show cv = dv
  cases cv with | mk a => cases dv with | mk b =>
  simp only [UInt32.toNat] at hcd
  congr
  exact BitVec.eq_of_toNat_eq hcd

theorem NUL_toNat : NUL.toNat = 0 := by decide

theorem NUL_toLower_toNat : NUL.toLower.toNat = 0 := by decide

theorem toLower_toNat_ne_zero (c : Char) (hc : c ≠ NUL) : c.toLower.toNat ≠ 0 := by
  have hc0 : c.toNat ≠ 0 := fun h0 => hc (char_toNat_inj (h0.trans NUL_toNat.symm))
  unfold Char.toLower
  dsimp only
  split_ifs with hu
  · obtain ⟨h1, h2⟩ := hu
    have h3 : c.toNat ≥ 65 := h1
    have h4 : c.toNat ≤ 90 := h2
    generalize c.toNat = n at *
    interval_cases n <;> decide
  · exact hc0

theorem stricmp_eq_zero_of_eqIgnoreCase (a b : List Char) (hab : eqIgnoreCase a b) :
    _stricmp a b = 0 := by
  induction a generalizing b with
  | nil =>
    cases b with
    | nil => simp [_stricmp]
    | cons y ys => simp [eqIgnoreCase] at hab
  | cons x xs ih =>
    cases b with
    | nil => simp [eqIgnoreCase] at hab
    | cons y ys =>
      simp only [eqIgnoreCase, List.map_cons, List.cons.injEq] at hab
      simp only [_stricmp, hab.1, if_true]
      exact ih ys hab.2

theorem eqIgnoreCase_of_stricmp_eq_zero (a b : List Char) (ha : NUL ∉ a) (hb : NUL ∉ b)
    (hab : _stricmp a b = 0) : eqIgnoreCase a b := by
  induction a generalizing b with
  | nil =>
    cases b with
    | nil => simp [eqIgnoreCase]
    | cons y ys =>
      exfalso
      have hy : y ≠ NUL := fun e => hb (by simp [e])
      have := toLower_toNat_ne_zero y hy
      simp only [_stricmp, NUL_toLower_toNat] at hab
      omega
  | cons x xs ih =>
    have hx : x ≠ NUL := fun e => ha (by simp [e])
    have hxs : NUL ∉ xs := fun e => ha (by simp [e])
    cases b with
    | nil =>
      exfalso
      have := toLower_toNat_ne_zero x hx
      simp only [_stricmp, NUL_toLower_toNat] at hab
      omega
    | cons y ys =>
      have hys : NUL ∉ ys := fun e => hb (by simp [e])
      simp only [_stricmp] at hab
      split_ifs at hab with hxy
      · simp only [eqIgnoreCase, List.map_cons, List.cons.injEq]
        exact ⟨hxy, ih ys hxs hys hab⟩
      · exfalso
        apply hxy
        apply char_toNat_inj
        omega

theorem stricmp_eq_zero_iff (a b : List Char) (ha : NUL ∉ a) (hb : NUL ∉ b) :
    _stricmp a b = 0 ↔ eqIgnoreCase a b :=
  ⟨eqIgnoreCase_of_stricmp_eq_zero a b ha hb, stricmp_eq_zero_of_eqIgnoreCase a b⟩

theorem NUL_not_mem_str_me : NUL ∉ str_me := by decide

theorem NUL_not_mem_str_source : NUL ∉ str_source := by decide

/-! ## Lemmas on `radius_search` -/

theorem radius_search_scan_eq_none (a : List Char)
    (ha : ∀ c ∈ a, c ≠ '<' ∧ c ≠ '>') : radius_search_scan a = none := by
  induction a with
  | nil => rfl
  | cons x xs ih =>
    have hx := ha x (by simp)
    simp only [radius_search_scan, hx.1, hx.2, or_self, if_false]
    exact ih (fun c hc => ha c (by simp [hc]))

theorem toLower_lt : Char.toLower '<' = '<' := by decide

theorem toLower_gt : Char.toLower '>' = '>' := by decide

theorem radius_search_scan_of_eqIgnoreCase (a lit : List Char)
    (hl1 : '<' ∉ lit.map Char.toLower) (hl2 : '>' ∉ lit.map Char.toLower)
    (hal : eqIgnoreCase a lit) : radius_search_scan a = none := by
  apply radius_search_scan_eq_none
  intro c hc
  have hm : c.toLower ∈ lit.map Char.toLower := by
    rw [← hal]
    exact List.mem_map_of_mem _ hc
  constructor
  · intro e
    rw [e, toLower_lt] at hm
    exact hl1 hm
  · intro e
    rw [e, toLower_gt] at hm
    exact hl2 hm

theorem radius_search_eq_none_of_scan (h : Host) (dest : List Char)
    (hs : radius_search_scan dest = none) : radius_search h dest = none := by
  simp [radius_search, hs]

theorem radius_search_scan_append (num rest : List Char) (c : Char)
    (hc : c = '<' ∨ c = '>') (hnum : ∀ x ∈ num, x ≠ '<' ∧ x ≠ '>') :
    radius_search_scan (num ++ c :: rest) = some (c, rest) := by
  induction num with
  | nil => simp [radius_search_scan, hc]
  | cons x xs ih =>
    have hx := hnum x (by simp)
    simp only [List.cons_append, radius_search_scan, hx.1, hx.2, or_self, if_false]
    exact ih (fun y hy => hnum y (by simp [hy]))

/-- A string made of a numeral `num` without comparator, a comparator `c` and
a rest `N` is a radius search as soon as `strtof` reads the whole of `num` and
stops there: the outputs are the value read, whether `c` is `<`, and `N`. -/
theorem isRadiusForm_of_shape (h : Host) (num N : List Char) (c : Char) (r : F32)
    (hc : c = '<' ∨ c = '>') (hnum : ∀ x ∈ num, x ≠ '<' ∧ x ≠ '>') (hne : num ≠ [])
    (hst : h.strtof (num ++ c :: N) = (r, num.length)) (hnul : NUL ∉ num ++ c :: N)
    (hs : num.headD NUL ≠ '*') (ha : num.headD NUL ≠ '@') :
    IsRadiusForm h (num ++ c :: N) r (decide (c = '<')) N := by
  have hhead : (num ++ c :: N).headD NUL = num.headD NUL := by
    cases num with
    | nil => exact absurd rfl hne
    | cons x xs => rfl
  refine ⟨hnul, by rw [hhead]; exact hs, by rw [hhead]; exact ha, ?_⟩
  have hlen : num.length ≠ 0 := by
    intro e
    exact hne (List.length_eq_zero.mp e)
  have hget : (num ++ c :: N).getD num.length NUL = c := by
    rw [List.getD_eq_getElem?_getD, List.getElem?_append_right (le_refl _)]
    simp
  unfold radius_search
  rw [radius_search_scan_append num N c hc hnum]
  simp only [hst]
  rw [if_neg (by rw [hget]; simp [hlen])]

/-! ## Lemmas on `archetype_search` -/

theorem archetype_search_concrete (h : Host) (mtch : List Int) (archetype : List Char)
    (do_full do_radius : Bool) (from_obj : Int) (radius : F32) (lessthan : Bool)
    (hc : 0 < h.GetObjectNamed archetype) :
    archetype_search h mtch archetype do_full do_radius from_obj radius lessthan =
      (mtch, (if do_radius then [HostCall.Position from_obj] else []) ++
        [HostCall.GetObjectNamed archetype]) := by
  have hn : ¬ h.GetObjectNamed archetype ≤ 0 := by omega
  simp [archetype_search, hn]

theorem archetype_search_abstract_fst (h : Host) (mtch : List Int) (archetype : List Char)
    (do_full do_radius : Bool) (from_obj : Int) (radius : F32) (lessthan : Bool)
    (hc : h.GetObjectNamed archetype ≤ 0) :
    (archetype_search h mtch archetype do_full do_radius from_obj radius lessthan).1 =
      mtch ++ (queryObjects h (h.GetObjectNamed archetype) (queryFlags h do_full)).filter
        (archetype_keep h do_radius (h.Position from_obj) radius lessthan) := by
  simp only [archetype_search, hc, if_true, queryObjects, queryFlags, fullFlags, directFlags]
  cases hq : h.Query (h.GetObjectNamed archetype)
      (if do_full = true then h.kTraitQueryChildren ||| h.kTraitQueryFull
        else h.kTraitQueryChildren) with
  | none => simp
  | some q => simp [archetype_search_loop_fst]

theorem archetype_search_abstract_snd (h : Host) (mtch : List Int) (archetype : List Char)
    (do_full do_radius : Bool) (from_obj : Int) (radius : F32) (lessthan : Bool)
    (hc : h.GetObjectNamed archetype ≤ 0) :
    (archetype_search h mtch archetype do_full do_radius from_obj radius lessthan).2 =
      (if do_radius then [HostCall.Position from_obj] else []) ++
        [HostCall.GetObjectNamed archetype,
          HostCall.Query (h.GetObjectNamed archetype) (queryFlags h do_full)] ++
        ((queryObjects h (h.GetObjectNamed archetype) (queryFlags h do_full)).filter
          (fun o => decide (o > 0) && do_radius)).map HostCall.Position := by
  simp only [archetype_search, hc, if_true, queryObjects, queryFlags, fullFlags, directFlags]
  cases hq : h.Query (h.GetObjectNamed archetype)
      (if do_full = true then h.kTraitQueryChildren ||| h.kTraitQueryFull
        else h.kTraitQueryChildren) with
  | none => simp
  | some q => simp [archetype_search_loop_snd]

theorem archetype_search_fst (h : Host) (mtch : List Int) (archetype : List Char)
    (do_full do_radius : Bool) (from_obj : Int) (radius : F32) (lessthan : Bool) :
    (archetype_search h mtch archetype do_full do_radius from_obj radius lessthan).1 =
      mtch ++ (if h.GetObjectNamed archetype ≤ 0 then
        (queryObjects h (h.GetObjectNamed archetype) (queryFlags h do_full)).filter
          (archetype_keep h do_radius (h.Position from_obj) radius lessthan)
        else []) := by
  by_cases hc : h.GetObjectNamed archetype ≤ 0
  · rw [archetype_search_abstract_fst h mtch archetype do_full do_radius from_obj radius
      lessthan hc, if_pos hc]
  · rw [archetype_search_concrete h mtch archetype do_full do_radius from_obj radius
      lessthan (by omega), if_neg hc]
    simp

/-! ## The branches of `get_target_objects` -/

theorem stricmp_star_ne (N lit : List Char) (c : Char) (hc : c = '*' ∨ c = '@')
    (hl : lit.headD NUL = '[') : _stricmp (c :: N) lit ≠ 0 := by
  cases lit with
  | nil => exact absurd hl (by decide)
  | cons y ys =>
    simp only [List.headD_cons] at hl
    subst hl
    rcases hc with rfl | rfl <;> simp [_stricmp]

theorem get_target_objects_star (h : Host) (N : List Char) (pMsg : Option sScrMsg) :
    get_target_objects h ('*' :: N) pMsg =
      some (archetype_search h [] N false false 0 (F32.fin 0) false) := by
  have h1 := stricmp_star_ne N str_me '*' (Or.inl rfl) rfl
  have h2 := stricmp_star_ne N str_source '*' (Or.inl rfl) rfl
  simp [get_target_objects, h1, h2]

theorem get_target_objects_at (h : Host) (N : List Char) (pMsg : Option sScrMsg) :
    get_target_objects h ('@' :: N) pMsg =
      some (archetype_search h [] N true false 0 (F32.fin 0) false) := by
  have h1 := stricmp_star_ne N str_me '@' (Or.inr rfl) rfl
  have h2 := stricmp_star_ne N str_source '@' (Or.inr rfl) rfl
  simp [get_target_objects, h1, h2]

theorem stricmp_ne_of_scan (dest lit : List Char) (hn : NUL ∉ dest) (hl : NUL ∉ lit)
    (hl1 : '<' ∉ lit.map Char.toLower) (hl2 : '>' ∉ lit.map Char.toLower)
    (hs : radius_search_scan dest ≠ none) : _stricmp dest lit ≠ 0 := by
  intro h0
  exact hs (radius_search_scan_of_eqIgnoreCase dest lit hl1 hl2
    (eqIgnoreCase_of_stricmp_eq_zero dest lit hn hl h0))

theorem get_target_objects_radius (h : Host) (dest : List Char) (radius : F32)
    (lessthan : Bool) (spec : List Char) (m : sScrMsg)
    (hf : IsRadiusForm h dest radius lessthan spec) :
    get_target_objects h dest (some m) =
      some (archetype_search h []
        (if spec.headD NUL = '*' ∨ spec.headD NUL = '@' then spec.drop 1 else spec)
        (decide (spec.headD NUL ≠ '*')) true m.to_ radius lessthan) := by
  obtain ⟨hn, hs, ha, hr⟩ := hf
  have hscan : radius_search_scan dest ≠ none := by
    intro e
    rw [radius_search_eq_none_of_scan h dest e] at hr
    exact absurd hr (by simp)
  have h1 := stricmp_ne_of_scan dest str_me hn NUL_not_mem_str_me (by decide) (by decide) hscan
  have h2 := stricmp_ne_of_scan dest str_source hn NUL_not_mem_str_source (by decide)
    (by decide) hscan
  have h3 : ¬ (dest.headD NUL = '*' ∨ dest.headD NUL = '@') := by tauto
  unfold get_target_objects
  rw [if_neg h1, if_neg h2, if_neg h3, hr]

theorem get_target_objects_named (h : Host) (dest : List Char) (pMsg : Option sScrMsg)
    (hp : IsPlainName h dest) :
    get_target_objects h dest pMsg =
      some (if h.GetObjectNamed dest ≠ 0 then [h.GetObjectNamed dest] else [],
        [HostCall.GetObjectNamed dest]) := by
  obtain ⟨hn, hme, hsrc, hs, ha, hr⟩ := hp
  have h1 : _stricmp dest str_me ≠ 0 := fun e =>
    hme (eqIgnoreCase_of_stricmp_eq_zero dest str_me hn NUL_not_mem_str_me e)
  have h2 : _stricmp dest str_source ≠ 0 := fun e =>
    hsrc (eqIgnoreCase_of_stricmp_eq_zero dest str_source hn NUL_not_mem_str_source e)
  have h3 : ¬ (dest.headD NUL = '*' ∨ dest.headD NUL = '@') := by tauto
  unfold get_target_objects
  rw [if_neg h1, if_neg h2, if_neg h3, hr]

theorem archetype_keep_no_radius (h : Host) (from_pos : cScrVec) (radius : F32)
    (lessthan : Bool) :
    archetype_keep h false from_pos radius lessthan = fun o => decide (0 < o) := by
  funext o
  simp [archetype_keep]

theorem archetype_keep_radius (h : Host) (from_obj : Int) (radius : F32) (lessthan : Bool)
    (o : Int) :
    archetype_keep h true (h.Position from_obj) radius lessthan o =
      (decide (0 < o) && distance_check lessthan (distanceFrom h from_obj o) radius) := by
  simp [archetype_keep, distanceFrom]

theorem archetype_search_query_mem (h : Host) (mtch : List Int) (archetype : List Char)
    (do_full do_radius : Bool) (from_obj : Int) (radius : F32) (lessthan : Bool)
    (a : Int) (f : Nat)
    (hm : HostCall.Query a f ∈
      (archetype_search h mtch archetype do_full do_radius from_obj radius lessthan).2) :
    a = h.GetObjectNamed archetype ∧ f = queryFlags h do_full ∧
      h.GetObjectNamed archetype ≤ 0 := by
  by_cases hc : h.GetObjectNamed archetype ≤ 0
  · rw [archetype_search_abstract_snd h mtch archetype do_full do_radius from_obj radius
      lessthan hc] at hm
    cases do_radius <;> simp at hm <;> exact ⟨hm.1, hm.2, hc⟩
  · rw [archetype_search_concrete h mtch archetype do_full do_radius from_obj radius
      lessthan (by omega)] at hm
    cases do_radius <;> simp at hm

/-! ## Lemmas on comparisons -/

theorem F32.lt_asymm (a b : F32) (hab : F32.lt a b = true) : F32.lt b a = false := by
  cases a <;> cases b <;> simp_all [F32.lt]
  exact le_of_lt hab

theorem F32.feq_of_lt (a b : F32) (hab : F32.lt a b = true) : F32.feq a b = false := by
  cases a <;> cases b <;> simp_all [F32.lt, F32.feq]
  exact ne_of_lt hab

theorem F32.feq_symm (a b : F32) : F32.feq a b = F32.feq b a := by
  cases a <;> cases b <;> simp [F32.feq, eq_comm]

theorem F32.lt_false_of_ge (a b : F32) (hab : F32.ge a b = true) : F32.lt a b = false := by
  simp only [F32.ge, F32.gt, Bool.or_eq_true] at hab
  rcases hab with hgt | heq
  · exact F32.lt_asymm b a hgt
  · cases hlt : F32.lt a b
    · rfl
    · rw [F32.feq_of_lt a b hlt] at heq
      exact absurd heq (by simp)

theorem F32.gt_false_of_le (a b : F32) (hab : F32.le a b = true) : F32.gt a b = false := by
  simp only [F32.le, Bool.or_eq_true] at hab
  rcases hab with hlt | heq
  · exact F32.lt_asymm a b hlt
  · cases hgt : F32.gt a b
    · rfl
    · rw [F32.feq_symm, F32.feq_of_lt b a hgt] at heq
      exact absurd heq (by simp)

theorem F32.trichotomy (a b : F32) (ha : F32.isNaN a = false) (hb : F32.isNaN b = false) :
    F32.lt a b = true ∨ F32.feq a b = true ∨ F32.lt b a = true := by
  cases a <;> cases b <;> simp_all [F32.lt, F32.feq, F32.isNaN]
  exact lt_trichotomy _ _

theorem distance_check_lessthan (d r : F32) : distance_check true d r = F32.lt d r := by
  simp [distance_check]

theorem distance_check_greaterthan (d r : F32) : distance_check false d r = F32.gt d r := by
  simp [distance_check]

/-- Membership in the result of a radius search for `N` (named without a
prefix) from the object `m.to_`. -/
theorem get_target_objects_radius_plain (h : Host) (dest N : List Char) (r : F32)
    (lessthan : Bool) (m : sScrMsg) (hf : IsRadiusForm h dest r lessthan N)
    (hs : N.headD NUL ≠ '*') (ha : N.headD NUL ≠ '@') :
    get_target_objects h dest (some m) =
      some (archetype_search h [] N true true m.to_ r lessthan) := by
  rw [get_target_objects_radius h dest r lessthan N m hf]
  have h3 : ¬ (N.headD NUL = '*' ∨ N.headD NUL = '@') := by tauto
  rw [if_neg h3]
  have h4 : decide (N.headD NUL ≠ '*') = true := by simpa using hs
  rw [h4]

theorem archetype_search_radius_mem (h : Host) (N : List Char) (do_full : Bool) (r : F32)
    (lessthan : Bool) (from_obj : Int) (hN : h.GetObjectNamed N ≤ 0) (c : Int) :
    c ∈ (archetype_search h [] N do_full true from_obj r lessthan).1 ↔
      (c ∈ queryObjects h (h.GetObjectNamed N) (queryFlags h do_full) ∧ 0 < c ∧
        distance_check lessthan (distanceFrom h from_obj c) r = true) := by
  rw [archetype_search_abstract_fst h [] N do_full true from_obj r lessthan hN]
  simp only [List.nil_append, List.mem_filter, archetype_keep_radius, Bool.and_eq_true,
    decide_eq_true_eq]

theorem archetype_search_radius_mem_iff (h : Host) (N : List Char) (do_full : Bool) (r : F32)
    (lessthan : Bool) (from_obj : Int) (c : Int) :
    c ∈ (archetype_search h [] N do_full true from_obj r lessthan).1 ↔
      (h.GetObjectNamed N ≤ 0 ∧
        c ∈ queryObjects h (h.GetObjectNamed N) (queryFlags h do_full) ∧ 0 < c ∧
        distance_check lessthan (distanceFrom h from_obj c) r = true) := by
  by_cases hN : h.GetObjectNamed N ≤ 0
  · rw [archetype_search_radius_mem h N do_full r lessthan from_obj hN c]
    simp [hN]
  · rw [archetype_search_concrete h [] N do_full true from_obj r lessthan (by omega)]
    simp [hN]

theorem archetype_search_plain_mem_iff (h : Host) (N : List Char) (do_full : Bool) (c : Int) :
    c ∈ (archetype_search h [] N do_full false 0 (F32.fin 0) false).1 ↔
      (h.GetObjectNamed N ≤ 0 ∧
        c ∈ queryObjects h (h.GetObjectNamed N) (queryFlags h do_full) ∧ 0 < c) := by
  rw [archetype_search_fst, archetype_keep_no_radius]
  by_cases hN : h.GetObjectNamed N ≤ 0 <;> simp [hN]

theorem archetype_search_radius_eq_spec (h : Host) (N : List Char) (do_full : Bool) (r : F32)
    (lessthan : Bool) (from_obj : Int) :
    (archetype_search h [] N do_full true from_obj r lessthan).1 =
      Spec.RadiusFiltered h (Spec.ArchetypeMembers h N do_full) r lessthan from_obj := by
  rw [archetype_search_fst]
  unfold Spec.RadiusFiltered Spec.ArchetypeMembers
  by_cases hN : h.GetObjectNamed N ≤ 0
  · have hn : ¬ 0 < h.GetObjectNamed N := by omega
    rw [if_pos hN, if_neg hn, List.filter_filter, List.nil_append]
    apply List.filter_congr
    intro x _
    rw [archetype_keep_radius]
    cases lessthan <;> simp [distance_check, queryFlags, fullFlags, directFlags, Bool.and_comm]
  · have hn : 0 < h.GetObjectNamed N := by omega
    rw [if_neg hN, if_pos hn]
    simp

theorem archetype_search_radius_calls (h : Host) (N : List Char) (do_full : Bool) (r : F32)
    (lessthan : Bool) (from_obj : Int) :
    (archetype_search h [] N do_full true from_obj r lessthan).2.take 2 =
      [HostCall.Position from_obj, HostCall.GetObjectNamed N] := by
  by_cases hN : h.GetObjectNamed N ≤ 0
  · rw [archetype_search_abstract_snd h [] N do_full true from_obj r lessthan hN]
    simp
  · rw [archetype_search_concrete h [] N do_full true from_obj r lessthan (by omega)]
    simp

theorem archetype_search_pos (h : Host) (archetype : List Char)
    (do_full do_radius : Bool) (from_obj : Int) (radius : F32) (lessthan : Bool) (x : Int)
    (hx : x ∈ (archetype_search h [] archetype do_full do_radius from_obj radius lessthan).1) :
    0 < x := by
  rw [archetype_search_fst] at hx
  by_cases hc : h.GetObjectNamed archetype ≤ 0
  · simp only [hc, if_true, List.nil_append, List.mem_filter, archetype_keep,
      Bool.and_eq_true, decide_eq_true_eq] at hx
    exact hx.2.1
  · simp [hc] at hx

/-! ## The claims -/

/-- C1: for every destination string equal to `[me]` ignoring letter case, and
every message and world, `get_target_objects` returns the one-element list
holding the message's `to` object, and makes no call to the engine (the object
directory is not consulted). -/
theorem get_target_objects_me (h : Host) (dest : List Char) (m : sScrMsg)
    (hd : eqIgnoreCase dest str_me) :
    get_target_objects h dest (some m) = some ([m.to_], []) := by
  simp [get_target_objects, stricmp_eq_zero_of_eqIgnoreCase dest str_me hd]

/-- Witness of C1 on the destination `[Me]`. -/
theorem get_target_objects_me_witness :
    eqIgnoreCase ['[', 'M', 'e', ']'] str_me ∧
      get_target_objects exampleHost ['[', 'M', 'e', ']'] (some exampleMsg) = some ([2], []) :=
  ⟨by decide, get_target_objects_me exampleHost ['[', 'M', 'e', ']'] exampleMsg (by decide)⟩

/-- C2: for every destination string equal to `[source]` ignoring letter case,
and every message and world, `get_target_objects` returns the one-element list
holding the message's `from` object. -/
theorem get_target_objects_source (h : Host) (dest : List Char) (m : sScrMsg)
    (hd : eqIgnoreCase dest str_source) :
    get_target_objects h dest (some m) = some ([m.from_], []) := by
  have hne : _stricmp dest str_me ≠ 0 := by
    intro h0
    have hlen := congrArg List.length hd
    have hn : NUL ∉ dest := by
      intro hmem
      have : NUL.toLower ∈ dest.map Char.toLower := List.mem_map_of_mem _ hmem
      rw [hd] at this
      exact absurd this (by decide)
    have hme := eqIgnoreCase_of_stricmp_eq_zero dest str_me hn NUL_not_mem_str_me h0
    have hlen2 := congrArg List.length hme
    simp [str_me, str_source] at hlen hlen2
    omega
  simp [get_target_objects, hne, stricmp_eq_zero_of_eqIgnoreCase dest str_source hd]

/-- Witness of C2 on the destination `[SOURCE]`. -/
theorem get_target_objects_source_witness :
    eqIgnoreCase ['[', 'S', 'O', 'U', 'R', 'C', 'E', ']'] str_source ∧
      get_target_objects exampleHost ['[', 'S', 'O', 'U', 'R', 'C', 'E', ']'] (some exampleMsg)
        = some ([1], []) :=
  ⟨by decide,
    get_target_objects_source exampleHost ['[', 'S', 'O', 'U', 'R', 'C', 'E', ']'] exampleMsg
      (by decide)⟩

/-- C3: for every archetype name `N`, `*N` returns only concrete objects that
the direct-children query of `N` yields (the query is issued with the children
flag alone), `@N` returns the concrete objects that the full query of `N`
yields, and when the full query yields every object the direct query yields,
every id of the `*N` result is in the `@N` result. -/
theorem get_target_objects_star_at (h : Host) (N : List Char) (pMsg : Option sScrMsg) :
    ∃ star full : List Int × List HostCall,
      get_target_objects h ('*' :: N) pMsg = some star ∧
      get_target_objects h ('@' :: N) pMsg = some full ∧
      (∀ x ∈ star.1, 0 < x ∧ x ∈ queryObjects h (h.GetObjectNamed N) h.kTraitQueryChildren) ∧
      (∀ a f, HostCall.Query a f ∈ star.2 →
        a = h.GetObjectNamed N ∧ f = h.kTraitQueryChildren) ∧
      (h.GetObjectNamed N ≤ 0 →
        star.1 = (queryObjects h (h.GetObjectNamed N) h.kTraitQueryChildren).filter
          (fun o => decide (0 < o))) ∧
      (h.GetObjectNamed N ≤ 0 →
        full.1 = (queryObjects h (h.GetObjectNamed N)
          (h.kTraitQueryChildren ||| h.kTraitQueryFull)).filter (fun o => decide (0 < o))) ∧
      (∀ a f, HostCall.Query a f ∈ full.2 →
        a = h.GetObjectNamed N ∧ f = h.kTraitQueryChildren ||| h.kTraitQueryFull) ∧
      ((∀ x ∈ queryObjects h (h.GetObjectNamed N) h.kTraitQueryChildren,
          x ∈ queryObjects h (h.GetObjectNamed N)
            (h.kTraitQueryChildren ||| h.kTraitQueryFull)) →
        ∀ x ∈ star.1, x ∈ full.1) := by
  refine ⟨_, _, get_target_objects_star h N pMsg, get_target_objects_at h N pMsg, ?_, ?_, ?_,
    ?_, ?_, ?_⟩
  · intro x hx
    rw [archetype_search_fst, archetype_keep_no_radius] at hx
    by_cases hc : h.GetObjectNamed N ≤ 0
    · simpa [hc, queryFlags, directFlags, and_comm] using hx
    · simp [hc] at hx
  · intro a f hm
    have := archetype_search_query_mem h [] N false false 0 (F32.fin 0) false a f hm
    exact ⟨this.1, by simpa [queryFlags, directFlags] using this.2.1⟩
  · intro hc
    rw [archetype_search_fst, archetype_keep_no_radius]
    simp [hc, queryFlags, directFlags]
  · intro hc
    rw [archetype_search_fst, archetype_keep_no_radius]
    simp [hc, queryFlags, fullFlags]
  · intro a f hm
    have := archetype_search_query_mem h [] N true false 0 (F32.fin 0) false a f hm
    exact ⟨this.1, by simpa [queryFlags, fullFlags] using this.2.1⟩
  · intro hsub x hx
    rw [archetype_search_fst, archetype_keep_no_radius] at hx ⊢
    by_cases hc : h.GetObjectNamed N ≤ 0
    · simp only [hc, if_true, List.nil_append, List.mem_filter, queryFlags, directFlags,
        fullFlags] at hx ⊢
      exact ⟨hsub x hx.1, hx.2⟩
    · simp [hc] at hx

/-- Witness of C3 on the archetype `Chest` of the example world: `*Chest` gives
the objects 3 and 4, `@Chest` the objects 3, 4 and 9. -/
theorem get_target_objects_star_at_witness :
    exampleHost.GetObjectNamed str_Chest ≤ 0 ∧
    get_target_objects exampleHost ('*' :: str_Chest) none =
      some ([3, 4], [HostCall.GetObjectNamed str_Chest, HostCall.Query (-5) 1]) ∧
    get_target_objects exampleHost ('@' :: str_Chest) none =
      some ([3, 4, 9], [HostCall.GetObjectNamed str_Chest, HostCall.Query (-5) 3]) ∧
    ∃ star full : List Int × List HostCall,
      get_target_objects exampleHost ('*' :: str_Chest) none = some star ∧
      get_target_objects exampleHost ('@' :: str_Chest) none = some full ∧
      ∀ x ∈ star.1, x ∈ full.1 := by
  refine ⟨by decide, by decide, by decide, ?_⟩
  obtain ⟨star, full, h1, h2, _, _, _, _, _, h8⟩ :=
    get_target_objects_star_at exampleHost str_Chest none
  exact ⟨star, full, h1, h2, h8 (by decide)⟩

/-- C4: for every radius `r`, archetype name `N` and world, resolving `r<N`
returns a concrete descendant `c` of `N` exactly when the distance from the
current object (the message's `to`) to `c` is strictly less than `r`; a
descendant at a distance greater than or equal to `r` is not returned. -/
theorem get_target_objects_radius_lessthan (h : Host) (dest N : List Char) (r : F32)
    (m : sScrMsg) (hf : IsRadiusForm h dest r true N)
    (hs : N.headD NUL ≠ '*') (ha : N.headD NUL ≠ '@') (hN : h.GetObjectNamed N ≤ 0) :
    ∃ res : List Int × List HostCall,
      get_target_objects h dest (some m) = some res ∧
      (∀ c, c ∈ res.1 ↔
        (c ∈ queryObjects h (h.GetObjectNamed N) (h.kTraitQueryChildren ||| h.kTraitQueryFull)
          ∧ 0 < c ∧ F32.lt (distanceFrom h m.to_ c) r = true)) ∧
      (∀ c, F32.ge (distanceFrom h m.to_ c) r = true → c ∉ res.1) := by
  refine ⟨_, get_target_objects_radius_plain h dest N r true m hf hs ha, ?_, ?_⟩
  · intro c
    rw [archetype_search_radius_mem h N true r true m.to_ hN c, distance_check_lessthan]
    simp [queryFlags, fullFlags]
  · intro c hge hc
    rw [archetype_search_radius_mem h N true r true m.to_ hN c, distance_check_lessthan,
      F32.lt_false_of_ge _ _ hge] at hc
    simp at hc

/-- Witness of C4 on `5<Chest` in the example world, from object 2: object 3
(at distance 1) is returned, object 4 (at distance 5) and object 9 (at
distance 7) are not. -/
theorem get_target_objects_radius_lessthan_witness :
    IsRadiusForm exampleHost str_5_lt_Chest (F32.fin 5) true str_Chest ∧
    exampleHost.GetObjectNamed str_Chest ≤ 0 ∧
    ∃ res : List Int × List HostCall,
      get_target_objects exampleHost str_5_lt_Chest (some exampleMsg) = some res ∧
      3 ∈ res.1 ∧ 4 ∉ res.1 ∧ 9 ∉ res.1 := by
  refine ⟨by decide, by decide, ?_⟩
  obtain ⟨res, h1, h2, h3⟩ :=
    get_target_objects_radius_lessthan exampleHost str_5_lt_Chest str_Chest (F32.fin 5)
      exampleMsg (by decide) (by decide) (by decide) (by decide)
  exact ⟨res, h1, (h2 3).2 (by decide), h3 4 (by decide), h3 9 (by decide)⟩

/-- C5: for every radius `r`, archetype name `N` and world, resolving `r>N`
returns a concrete descendant `c` of `N` exactly when the distance from the
current object to `c` is strictly greater than `r`; a descendant at a distance
less than or equal to `r` is not returned. -/
theorem get_target_objects_radius_greaterthan (h : Host) (dest N : List Char) (r : F32)
    (m : sScrMsg) (hf : IsRadiusForm h dest r false N)
    (hs : N.headD NUL ≠ '*') (ha : N.headD NUL ≠ '@') (hN : h.GetObjectNamed N ≤ 0) :
    ∃ res : List Int × List HostCall,
      get_target_objects h dest (some m) = some res ∧
      (∀ c, c ∈ res.1 ↔
        (c ∈ queryObjects h (h.GetObjectNamed N) (h.kTraitQueryChildren ||| h.kTraitQueryFull)
          ∧ 0 < c ∧ F32.gt (distanceFrom h m.to_ c) r = true)) ∧
      (∀ c, F32.le (distanceFrom h m.to_ c) r = true → c ∉ res.1) := by
  refine ⟨_, get_target_objects_radius_plain h dest N r false m hf hs ha, ?_, ?_⟩
  · intro c
    rw [archetype_search_radius_mem h N true r false m.to_ hN c, distance_check_greaterthan]
    simp [queryFlags, fullFlags]
  · intro c hle hc
    rw [archetype_search_radius_mem h N true r false m.to_ hN c, distance_check_greaterthan,
      F32.gt_false_of_le _ _ hle] at hc
    simp at hc

/-- Witness of C5 on `5>Chest` in the example world, from object 2: object 9
(at distance 7) is returned, object 4 (at distance 5) and object 3 (at
distance 1) are not. -/
theorem get_target_objects_radius_greaterthan_witness :
    IsRadiusForm exampleHost str_5_gt_Chest (F32.fin 5) false str_Chest ∧
    exampleHost.GetObjectNamed str_Chest ≤ 0 ∧
    ∃ res : List Int × List HostCall,
      get_target_objects exampleHost str_5_gt_Chest (some exampleMsg) = some res ∧
      9 ∈ res.1 ∧ 4 ∉ res.1 ∧ 3 ∉ res.1 := by
  refine ⟨by decide, by decide, ?_⟩
  obtain ⟨res, h1, h2, h3⟩ :=
    get_target_objects_radius_greaterthan exampleHost str_5_gt_Chest str_Chest (F32.fin 5)
      exampleMsg (by decide) (by decide) (by decide) (by decide)
  exact ⟨res, h1, (h2 9).2 (by decide), h3 4 (by decide), h3 3 (by decide)⟩

/-- C6, as stated, fails: in the example world the radius of `nan<Chest` and
`nan>Chest` is a NaN; object 3 is in the unfiltered expansion `@Chest`, its
distance 1 from object 2 differs from the radius, and it is in neither
result. -/
theorem radius_pair_nan_counterexample :
    IsRadiusForm exampleHost str_nan_lt_Chest F32.nan true str_Chest ∧
    IsRadiusForm exampleHost str_nan_gt_Chest F32.nan false str_Chest ∧
    get_target_objects exampleHost ('@' :: str_Chest) (some exampleMsg) =
      some ([3, 4, 9], [HostCall.GetObjectNamed str_Chest, HostCall.Query (-5) 3]) ∧
    distanceFrom exampleHost exampleMsg.to_ 3 = F32.fin 1 ∧
    F32.feq (distanceFrom exampleHost exampleMsg.to_ 3) F32.nan = false ∧
    get_target_objects exampleHost str_nan_lt_Chest (some exampleMsg) =
      some ([], [HostCall.Position 2, HostCall.GetObjectNamed str_Chest,
        HostCall.Query (-5) 3, HostCall.Position 3, HostCall.Position 4,
        HostCall.Position 9]) ∧
    get_target_objects exampleHost str_nan_gt_Chest (some exampleMsg) =
      some ([], [HostCall.Position 2, HostCall.GetObjectNamed str_Chest,
        HostCall.Query (-5) 3, HostCall.Position 3, HostCall.Position 4,
        HostCall.Position 9]) := by
  refine ⟨by decide, by decide, by decide, by decide, by decide, by decide, by decide⟩

/-- C6, amended: for every radius `r`, archetype name `N` and unchanged world,
the results of `r<N` and `r>N` have no object in common, a candidate whose
distance from the current object equals `r` is in neither, and every candidate
of the unfiltered expansion `@N` whose distance differs from `r`, neither of
the two being a NaN, is in exactly one of the two. -/
theorem radius_pair_partition (h : Host) (dlt dgt N : List Char) (r : F32) (m : sScrMsg)
    (hlt : IsRadiusForm h dlt r true N) (hgt : IsRadiusForm h dgt r false N)
    (hs : N.headD NUL ≠ '*') (ha : N.headD NUL ≠ '@') :
    ∃ rl rg unf : List Int × List HostCall,
      get_target_objects h dlt (some m) = some rl ∧
      get_target_objects h dgt (some m) = some rg ∧
      get_target_objects h ('@' :: N) (some m) = some unf ∧
      (∀ c, ¬ (c ∈ rl.1 ∧ c ∈ rg.1)) ∧
      (∀ c, F32.feq (distanceFrom h m.to_ c) r = true → c ∉ rl.1 ∧ c ∉ rg.1) ∧
      (∀ c ∈ unf.1, F32.isNaN (distanceFrom h m.to_ c) = false → F32.isNaN r = false →
        F32.feq (distanceFrom h m.to_ c) r = false →
        (c ∈ rl.1 ∧ c ∉ rg.1) ∨ (c ∉ rl.1 ∧ c ∈ rg.1)) := by
  refine ⟨_, _, _, get_target_objects_radius_plain h dlt N r true m hlt hs ha,
    get_target_objects_radius_plain h dgt N r false m hgt hs ha,
    get_target_objects_at h N (some m), ?_, ?_, ?_⟩
  · rintro c ⟨h1, h2⟩
    rw [archetype_search_radius_mem_iff, distance_check_lessthan] at h1
    rw [archetype_search_radius_mem_iff, distance_check_greaterthan] at h2
    have := F32.lt_asymm _ _ h1.2.2.2
    rw [F32.gt, this] at h2
    simp at h2
  · intro c he
    constructor
    · intro h1
      rw [archetype_search_radius_mem_iff, distance_check_lessthan] at h1
      rw [F32.feq_of_lt _ _ h1.2.2.2] at he
      simp at he
    · intro h2
      rw [archetype_search_radius_mem_iff, distance_check_greaterthan] at h2
      rw [F32.feq_symm, F32.feq_of_lt _ _ h2.2.2.2] at he
      simp at he
  · intro c hc hd hr hne
    rw [archetype_search_plain_mem_iff] at hc
    rw [archetype_search_radius_mem_iff, archetype_search_radius_mem_iff,
      distance_check_lessthan, distance_check_greaterthan]
    rcases F32.trichotomy _ _ hd hr with hl | he | hg
    · left
      refine ⟨⟨hc.1, hc.2.1, hc.2.2, hl⟩, ?_⟩
      rintro ⟨_, _, _, h4⟩
      rw [F32.gt, F32.lt_asymm _ _ hl] at h4
      simp at h4
    · rw [he] at hne
      simp at hne
    · right
      refine ⟨?_, ⟨hc.1, hc.2.1, hc.2.2, hg⟩⟩
      rintro ⟨_, _, _, h4⟩
      rw [F32.lt_asymm _ _ hg] at h4
      simp at h4

/-- Witness of the amended C6 on `5<Chest` and `5>Chest` in the example world:
object 3 is only in the first result, object 9 only in the second, and object
4, at distance 5, in neither. -/
theorem radius_pair_partition_witness :
    IsRadiusForm exampleHost str_5_lt_Chest (F32.fin 5) true str_Chest ∧
    IsRadiusForm exampleHost str_5_gt_Chest (F32.fin 5) false str_Chest ∧
    ∃ rl rg : List Int × List HostCall,
      get_target_objects exampleHost str_5_lt_Chest (some exampleMsg) = some rl ∧
      get_target_objects exampleHost str_5_gt_Chest (some exampleMsg) = some rg ∧
      (∀ c, ¬ (c ∈ rl.1 ∧ c ∈ rg.1)) ∧ 4 ∉ rl.1 ∧ 4 ∉ rg.1 := by
  refine ⟨by decide, by decide, ?_⟩
  obtain ⟨rl, rg, _, h1, h2, _, h4, h5, _⟩ :=
    radius_pair_partition exampleHost str_5_lt_Chest str_5_gt_Chest str_Chest (F32.fin 5)
      exampleMsg (by decide) (by decide) (by decide) (by decide)
  exact ⟨rl, rg, h1, h2, h4, (h5 4 (by decide)).1, (h5 4 (by decide)).2⟩

/-- C7: in a radius-form destination the archetype-spec after the comparator
selects the direct children when it starts with `*` and the full descendant
set when it starts with `@` or has no prefix; the prefix character is not part
of the name looked up; and distances are measured from the message's `to`
object, whose position is the first thing the code asks for. -/
theorem get_target_objects_radius_spec (h : Host) (dest spec : List Char) (r : F32)
    (lessthan : Bool) (m : sScrMsg) (hf : IsRadiusForm h dest r lessthan spec) :
    ∃ res : List Int × List HostCall,
      get_target_objects h dest (some m) = some res ∧
      (∀ N, spec = '*' :: N →
        res.1 = Spec.RadiusFiltered h (Spec.ArchetypeMembers h N false) r lessthan m.to_ ∧
        res.2.take 2 = [HostCall.Position m.to_, HostCall.GetObjectNamed N] ∧
        ∀ a f, HostCall.Query a f ∈ res.2 → f = h.kTraitQueryChildren) ∧
      (∀ N, spec = '@' :: N →
        res.1 = Spec.RadiusFiltered h (Spec.ArchetypeMembers h N true) r lessthan m.to_ ∧
        res.2.take 2 = [HostCall.Position m.to_, HostCall.GetObjectNamed N] ∧
        ∀ a f, HostCall.Query a f ∈ res.2 → f = h.kTraitQueryChildren ||| h.kTraitQueryFull) ∧
      (spec.headD NUL ≠ '*' → spec.headD NUL ≠ '@' →
        res.1 = Spec.RadiusFiltered h (Spec.ArchetypeMembers h spec true) r lessthan m.to_ ∧
        res.2.take 2 = [HostCall.Position m.to_, HostCall.GetObjectNamed spec] ∧
        ∀ a f, HostCall.Query a f ∈ res.2 →
          f = h.kTraitQueryChildren ||| h.kTraitQueryFull) := by
  refine ⟨_, get_target_objects_radius h dest r lessthan spec m hf, ?_, ?_, ?_⟩
  · rintro N rfl
    have e1 : (if ('*' :: N).headD NUL = '*' ∨ ('*' :: N).headD NUL = '@'
        then ('*' :: N).drop 1 else '*' :: N) = N := by simp
    have e2 : decide (('*' :: N).headD NUL ≠ '*') = false := by simp
    rw [e1, e2]
    refine ⟨archetype_search_radius_eq_spec h N false r lessthan m.to_,
      archetype_search_radius_calls h N false r lessthan m.to_, ?_⟩
    intro a f hm
    simpa [queryFlags, directFlags] using
      (archetype_search_query_mem h [] N false true m.to_ r lessthan a f hm).2.1
  · rintro N rfl
    have e1 : (if ('@' :: N).headD NUL = '*' ∨ ('@' :: N).headD NUL = '@'
        then ('@' :: N).drop 1 else '@' :: N) = N := by simp
    have e2 : decide (('@' :: N).headD NUL ≠ '*') = true := by
      rw [List.headD_cons]; decide
    rw [e1, e2]
    refine ⟨archetype_search_radius_eq_spec h N true r lessthan m.to_,
      archetype_search_radius_calls h N true r lessthan m.to_, ?_⟩
    intro a f hm
    simpa [queryFlags, fullFlags] using
      (archetype_search_query_mem h [] N true true m.to_ r lessthan a f hm).2.1
  · intro hs ha
    have h3 : ¬ (spec.headD NUL = '*' ∨ spec.headD NUL = '@') := by tauto
    have e2 : decide (spec.headD NUL ≠ '*') = true := by simpa using hs
    rw [if_neg h3, e2]
    refine ⟨archetype_search_radius_eq_spec h spec true r lessthan m.to_,
      archetype_search_radius_calls h spec true r lessthan m.to_, ?_⟩
    intro a f hm
    simpa [queryFlags, fullFlags] using
      (archetype_search_query_mem h [] spec true true m.to_ r lessthan a f hm).2.1

/-- Witness of C7 on `5>*Chest` in the example world: the name looked up is
`Chest`, the query is the direct one, and no direct child of `Chest` is
further than 5 from object 2. -/
theorem get_target_objects_radius_spec_witness :
    IsRadiusForm exampleHost str_5_gt_star_Chest (F32.fin 5) false ('*' :: str_Chest) ∧
    ∃ res : List Int × List HostCall,
      get_target_objects exampleHost str_5_gt_star_Chest (some exampleMsg) = some res ∧
      res.1 = [] ∧
      res.2.take 2 = [HostCall.Position 2, HostCall.GetObjectNamed str_Chest] ∧
      ∀ a f, HostCall.Query a f ∈ res.2 → f = 1 := by
  refine ⟨by decide, ?_⟩
  obtain ⟨res, h1, h2, _, _⟩ :=
    get_target_objects_radius_spec exampleHost str_5_gt_star_Chest ('*' :: str_Chest)
      (F32.fin 5) false exampleMsg (by decide)
  obtain ⟨h3, h4, h5⟩ := h2 str_Chest rfl
  exact ⟨res, h1, by rw [h3]; decide, h4, h5⟩

/-- C8, as stated, fails: in the example world the plain name `Chest` names an
archetype, and `get_target_objects` returns its id -5; and `[me]` returns the
message's `to` object even when that is 0. -/
theorem get_target_objects_not_concrete_counterexample :
    get_target_objects exampleHost str_Chest (some exampleMsg) =
      some ([-5], [HostCall.GetObjectNamed str_Chest]) ∧
    get_target_objects exampleHost str_me (some ⟨1, 0⟩) = some ([0], []) ∧
    ¬ (0 < (-5 : Int)) ∧ ¬ (0 < (0 : Int)) := by
  refine ⟨by decide, by decide, by decide, by decide⟩

/-- C8, amended: for every destination string, message and world, every id
returned by the three archetype-selector branches (a leading `*`, a leading
`@`, a radius search) is strictly positive; the plain-name branch returns
exactly the id the directory gives for the whole string whenever that id is
nonzero, be it negative, and nothing when it is 0; and the `[me]` and
`[source]` branches return exactly the message's `to` and `from` as they
are. -/
theorem get_target_objects_ids (h : Host) (dest : List Char) (m : sScrMsg) :
    ∃ res : List Int × List HostCall,
      get_target_objects h dest (some m) = some res ∧
      (_stricmp dest str_me = 0 → res.1 = [m.to_]) ∧
      (_stricmp dest str_me ≠ 0 → _stricmp dest str_source = 0 → res.1 = [m.from_]) ∧
      (_stricmp dest str_me ≠ 0 → _stricmp dest str_source ≠ 0 →
        (dest.headD NUL = '*' ∨ dest.headD NUL = '@' ∨ radius_search h dest ≠ none) →
        ∀ x ∈ res.1, 0 < x) ∧
      (_stricmp dest str_me ≠ 0 → _stricmp dest str_source ≠ 0 →
        dest.headD NUL ≠ '*' → dest.headD NUL ≠ '@' → radius_search h dest = none →
        (h.GetObjectNamed dest ≠ 0 → res.1 = [h.GetObjectNamed dest]) ∧
        (h.GetObjectNamed dest = 0 → res.1 = [])) := by
  unfold get_target_objects
  by_cases h1 : _stricmp dest str_me = 0
  · rw [if_pos h1]
    exact ⟨_, rfl, fun _ => rfl, fun c => absurd h1 c, fun c => absurd h1 c,
      fun c => absurd h1 c⟩
  · rw [if_neg h1]
    by_cases h2 : _stricmp dest str_source = 0
    · rw [if_pos h2]
      exact ⟨_, rfl, fun c => absurd c h1, fun _ _ => rfl, fun _ c => absurd h2 c,
        fun _ c => absurd h2 c⟩
    · rw [if_neg h2]
      by_cases h3 : dest.headD NUL = '*' ∨ dest.headD NUL = '@'
      · rw [if_pos h3]
        refine ⟨_, rfl, fun c => absurd c h1, fun _ c => absurd c h2, ?_, ?_⟩
        · intro _ _ _ x hx
          exact archetype_search_pos h _ _ _ _ _ _ x hx
        · intro _ _ hs ha
          exact absurd h3 (by tauto)
      · rw [if_neg h3]
        cases hr : radius_search h dest with
        | none =>
          refine ⟨_, rfl, fun c => absurd c h1, fun _ c => absurd c h2, ?_, ?_⟩
          · intro _ _ hor
            exact absurd hor (by tauto)
          · intro _ _ _ _ _
            constructor
            · intro h0
              dsimp only
              rw [if_pos h0]
            · intro h0
              have hn : ¬ h.GetObjectNamed dest ≠ 0 := fun c => c h0
              dsimp only
              rw [if_neg hn]
        | some t =>
          obtain ⟨radius, lessthan, archname⟩ := t
          refine ⟨_, rfl, fun c => absurd c h1, fun _ c => absurd c h2, ?_, ?_⟩
          · intro _ _ _ x hx
            exact archetype_search_pos h _ _ _ _ _ _ x hx
          · intro _ _ _ _ c
            exact absurd c (by simp)

/-- Witness of the amended C8 in the example world: the plain name `Chest`,
which names the archetype -5, resolves to exactly that negative id; the plain
name `NoSuchObject` resolves to nothing; `[me]` with a message to object 0
resolves to 0; and the radius search `5<Chest` resolves to strictly positive
ids only. -/
theorem get_target_objects_ids_witness :
    (∃ res : List Int × List HostCall,
      get_target_objects exampleHost str_Chest (some exampleMsg) = some res ∧
      res.1 = [-5]) ∧
    (∃ res : List Int × List HostCall,
      get_target_objects exampleHost str_NoSuchObject (some exampleMsg) = some res ∧
      res.1 = []) ∧
    (∃ res : List Int × List HostCall,
      get_target_objects exampleHost str_me (some ⟨1, 0⟩) = some res ∧ res.1 = [0]) ∧
    (∃ res : List Int × List HostCall,
      get_target_objects exampleHost str_source (some ⟨1, 0⟩) = some res ∧ res.1 = [1]) ∧
    (∃ res : List Int × List HostCall,
      get_target_objects exampleHost str_5_lt_Chest (some exampleMsg) = some res ∧
      res.1 ≠ [] ∧ ∀ x ∈ res.1, 0 < x) := by
  refine ⟨?_, ?_, ?_, ?_, ?_⟩
  · obtain ⟨res, h1, _, _, _, h5⟩ := get_target_objects_ids exampleHost str_Chest exampleMsg
    exact ⟨res, h1, (h5 (by decide) (by decide) (by decide) (by decide) (by decide)).1
      (by decide)⟩
  · obtain ⟨res, h1, _, _, _, h5⟩ :=
      get_target_objects_ids exampleHost str_NoSuchObject exampleMsg
    exact ⟨res, h1, (h5 (by decide) (by decide) (by decide) (by decide) (by decide)).2
      (by decide)⟩
  · obtain ⟨res, h1, h2, _⟩ := get_target_objects_ids exampleHost str_me ⟨1, 0⟩
    exact ⟨res, h1, h2 (by decide)⟩
  · obtain ⟨res, h1, _, h3, _⟩ := get_target_objects_ids exampleHost str_source ⟨1, 0⟩
    exact ⟨res, h1, h3 (by decide) (by decide)⟩
  · obtain ⟨res, h1, _, _, h4, _⟩ :=
      get_target_objects_ids exampleHost str_5_lt_Chest exampleMsg
    refine ⟨res, h1, ?_, h4 (by decide) (by decide) (Or.inr (Or.inr (by decide)))⟩
    have h5 : get_target_objects exampleHost str_5_lt_Chest (some exampleMsg) =
        some ([3], [HostCall.Position 2, HostCall.GetObjectNamed str_Chest,
          HostCall.Query (-5) 3, HostCall.Position 3, HostCall.Position 4,
          HostCall.Position 9]) := by decide
    rw [h5] at h1
    cases h1
    decide

/-- C9: for every destination string handled as a plain name (not `[me]` or
`[source]`, no leading `*` or `@`, not a radius search), `get_target_objects`
looks the whole string up in the directory, returns the one-element list of
the id found when it is nonzero, and the empty list when it is 0. -/
theorem get_target_objects_plain_name (h : Host) (dest : List Char) (pMsg : Option sScrMsg)
    (hp : IsPlainName h dest) :
    (h.GetObjectNamed dest ≠ 0 →
      get_target_objects h dest pMsg =
        some ([h.GetObjectNamed dest], [HostCall.GetObjectNamed dest])) ∧
    (h.GetObjectNamed dest = 0 →
      get_target_objects h dest pMsg = some ([], [HostCall.GetObjectNamed dest])) := by
  rw [get_target_objects_named h dest pMsg hp]
  constructor
  · intro h0
    rw [if_pos h0]
  · intro h0
    have : ¬ h.GetObjectNamed dest ≠ 0 := fun c => c h0
    rw [if_neg this]

/-- Witness of C9 in the example world: `NoSuchObject` names no object and
resolves to the empty list; `Door` names object 7 and resolves to it. -/
theorem get_target_objects_plain_name_witness :
    IsPlainName exampleHost str_NoSuchObject ∧
    exampleHost.GetObjectNamed str_NoSuchObject = 0 ∧
    get_target_objects exampleHost str_NoSuchObject none =
      some ([], [HostCall.GetObjectNamed str_NoSuchObject]) ∧
    IsPlainName exampleHost str_Door ∧
    get_target_objects exampleHost str_Door none =
      some ([7], [HostCall.GetObjectNamed str_Door]) :=
  ⟨by decide, by decide,
    (get_target_objects_plain_name exampleHost str_NoSuchObject none (by decide)).2 (by decide),
    by decide,
    (get_target_objects_plain_name exampleHost str_Door none (by decide)).1 (by decide)⟩

/-- C10: when the directory resolves the archetype name `N` to a concrete
object (a strictly positive id), `archetype_search` leaves the match list as it
was and issues no hierarchy query, so `*N`, `@N` and every radius form naming
`N` resolve to the empty list. -/
theorem archetype_selector_concrete_name (h : Host) (N : List Char)
    (hN : 0 < h.GetObjectNamed N) :
    (∀ mtch do_full do_radius from_obj radius lessthan,
      (archetype_search h mtch N do_full do_radius from_obj radius lessthan).1 = mtch ∧
      ∀ c ∈ (archetype_search h mtch N do_full do_radius from_obj radius lessthan).2,
        c.isQuery = false) ∧
    (∀ pMsg, get_target_objects h ('*' :: N) pMsg =
      some ([], [HostCall.GetObjectNamed N])) ∧
    (∀ pMsg, get_target_objects h ('@' :: N) pMsg =
      some ([], [HostCall.GetObjectNamed N])) ∧
    (∀ dest radius lessthan spec m, IsRadiusForm h dest radius lessthan spec →
      (spec = '*' :: N ∨ spec = '@' :: N ∨
        (spec = N ∧ N.headD NUL ≠ '*' ∧ N.headD NUL ≠ '@')) →
      get_target_objects h dest (some m) =
        some ([], [HostCall.Position m.to_, HostCall.GetObjectNamed N])) := by
  refine ⟨?_, ?_, ?_, ?_⟩
  · intro mtch do_full do_radius from_obj radius lessthan
    rw [archetype_search_concrete h mtch N do_full do_radius from_obj radius lessthan hN]
    refine ⟨rfl, ?_⟩
    intro c hc
    cases do_radius <;> simp at hc
    · subst hc; rfl
    · rcases hc with rfl | rfl <;> rfl
  · intro pMsg
    rw [get_target_objects_star, archetype_search_concrete h [] N _ _ _ _ _ hN]
    rfl
  · intro pMsg
    rw [get_target_objects_at, archetype_search_concrete h [] N _ _ _ _ _ hN]
    rfl
  · intro dest radius lessthan spec m hf hspec
    rw [get_target_objects_radius h dest radius lessthan spec m hf]
    have hname : (if spec.headD NUL = '*' ∨ spec.headD NUL = '@' then spec.drop 1 else spec)
        = N := by
      rcases hspec with rfl | rfl | ⟨rfl, hs, ha⟩
      · simp
      · simp
      · have h3 : ¬ (spec.headD NUL = '*' ∨ spec.headD NUL = '@') := by tauto
        rw [if_neg h3]
    rw [hname, archetype_search_concrete h [] N _ _ _ _ _ hN]
    rfl

/-- Witness of C10 on `Door`, a concrete object of the example world: `*Door`
and `5<Door` resolve to the empty list with no hierarchy query. -/
theorem archetype_selector_concrete_name_witness :
    0 < exampleHost.GetObjectNamed str_Door ∧
    get_target_objects exampleHost ('*' :: str_Door) none =
      some ([], [HostCall.GetObjectNamed str_Door]) ∧
    IsRadiusForm exampleHost str_5_lt_Door (F32.fin 5) true str_Door ∧
    get_target_objects exampleHost str_5_lt_Door (some exampleMsg) =
      some ([], [HostCall.Position 2, HostCall.GetObjectNamed str_Door]) :=
  ⟨by decide,
    (archetype_selector_concrete_name exampleHost str_Door (by decide)).2.1 none,
    by decide,
    (archetype_selector_concrete_name exampleHost str_Door (by decide)).2.2.2
      str_5_lt_Door (F32.fin 5) true str_Door exampleMsg (by decide)
      (Or.inr (Or.inr ⟨rfl, by decide, by decide⟩))⟩

/-! ## Claims on the malformed and edge cases of the resolver -/

theorem radius_search_scan_some (dest rest : List Char) (c : Char)
    (hs : radius_search_scan dest = some (c, rest)) :
    ∃ pre, dest = pre ++ c :: rest ∧ (c = '<' ∨ c = '>') ∧
      ∀ x ∈ pre, x ≠ '<' ∧ x ≠ '>' := by
  induction dest with
  | nil => simp [radius_search_scan] at hs
  | cons x xs ih =>
    simp only [radius_search_scan] at hs
    split_ifs at hs with hx
    · simp only [Option.some.injEq, Prod.mk.injEq] at hs
      obtain ⟨rfl, rfl⟩ := hs
      exact ⟨[], rfl, hx, by simp⟩
    · obtain ⟨pre, hpre, hc, hall⟩ := ih hs
      refine ⟨x :: pre, by rw [hpre]; rfl, hc, ?_⟩
      intro y hy
      rcases List.mem_cons.mp hy with rfl | hy
      · exact ⟨fun e => hx (Or.inl e), fun e => hx (Or.inr e)⟩
      · exact hall y hy

theorem getD_append_left_mem (pre rest : List Char) (i : Nat) (hi : i < pre.length) :
    (pre ++ rest).getD i NUL ∈ pre := by
  rw [List.getD_eq_getElem?_getD, List.getElem?_append_left hi,
    List.getElem?_eq_getElem hi]
  exact List.getElem_mem hi

theorem getD_append_length (pre rest : List Char) (c : Char) :
    (pre ++ c :: rest).getD pre.length NUL = c := by
  rw [List.getD_eq_getElem?_getD, List.getElem?_append_right (le_refl _)]
  simp

/-- Evaluation for C11: in the second world `Ghost` names nothing (id 0), and
`*Ghost`, `@Ghost` and `5<Ghost` all return object 8, which the hierarchy query
of id 0 yields: the query is issued for id 0 and its concrete objects are
returned. -/
theorem get_target_objects_not_found_queries_zero :
    oddHost.GetObjectNamed str_Ghost = 0 ∧
    get_target_objects oddHost ('*' :: str_Ghost) none =
      some ([8], [HostCall.GetObjectNamed str_Ghost, HostCall.Query 0 1]) ∧
    get_target_objects oddHost ('@' :: str_Ghost) none =
      some ([8], [HostCall.GetObjectNamed str_Ghost, HostCall.Query 0 3]) ∧
    get_target_objects oddHost str_5_lt_Ghost (some exampleMsg) =
      some ([8], [HostCall.Position 2, HostCall.GetObjectNamed str_Ghost,
        HostCall.Query 0 3, HostCall.Position 8]) := by
  refine ⟨by decide, by decide, by decide, by decide⟩

/-- C12, as stated, fails: in the second world the text before the first
comparator of `*5<Chest` is `*5`, of which `strtof` reads nothing, and
`radius_search` returns false; but `get_target_objects` does not look the
whole string up (that would give object 7): it returns the direct concrete
children 11 and 12 of the archetype named `5<Chest`. -/
theorem get_target_objects_malformed_radius_counterexample :
    (oddHost.strtof str_star_5_lt_Chest).2 = 0 ∧
    radius_search oddHost str_star_5_lt_Chest = none ∧
    oddHost.GetObjectNamed str_star_5_lt_Chest = 7 ∧
    get_target_objects oddHost str_star_5_lt_Chest none =
      some ([11, 12], [HostCall.GetObjectNamed str_5_lt_Chest, HostCall.Query (-6) 1]) := by
  refine ⟨by decide, by decide, by decide, by decide⟩

/-- C12, amended: for every destination string that holds a `<` or `>` and in
whose text before the first comparator `strtof` reads nothing, or stops before
the comparator, `radius_search` returns false; and when the string does not
start with `*` or `@`, `get_target_objects` looks the whole, unmodified string
up as a plain object name and returns the result of that lookup. -/
theorem get_target_objects_malformed_radius (h : Host) (pre rest : List Char) (c : Char)
    (pMsg : Option sScrMsg) (hc : c = '<' ∨ c = '>') (hpre : ∀ x ∈ pre, x ≠ '<' ∧ x ≠ '>')
    (hend : (h.strtof (pre ++ c :: rest)).2 = 0 ∨
      (h.strtof (pre ++ c :: rest)).2 < pre.length) :
    radius_search h (pre ++ c :: rest) = none ∧
    (NUL ∉ pre ++ c :: rest → (pre ++ c :: rest).headD NUL ≠ '*' →
      (pre ++ c :: rest).headD NUL ≠ '@' →
      get_target_objects h (pre ++ c :: rest) pMsg =
        some (if h.GetObjectNamed (pre ++ c :: rest) ≠ 0
            then [h.GetObjectNamed (pre ++ c :: rest)] else [],
          [HostCall.GetObjectNamed (pre ++ c :: rest)])) := by
  have hscan := radius_search_scan_append pre rest c hc hpre
  have hnone : radius_search h (pre ++ c :: rest) = none := by
    unfold radius_search
    rw [hscan]
    dsimp only
    rw [if_pos]
    rcases hend with h0 | hlt
    · exact Or.inl h0
    · right
      intro e
      have hm := getD_append_left_mem pre (c :: rest) _ hlt
      rw [e] at hm
      have := hpre c hm
      rcases hc with rfl | rfl
      · exact this.1 rfl
      · exact this.2 rfl
  refine ⟨hnone, ?_⟩
  intro hn hs ha
  apply get_target_objects_named
  have hne : radius_search_scan (pre ++ c :: rest) ≠ none := by
    rw [hscan]
    simp
  refine ⟨hn, ?_, ?_, hs, ha, hnone⟩
  · intro e
    exact hne (radius_search_scan_of_eqIgnoreCase _ str_me (by decide) (by decide) e)
  · intro e
    exact hne (radius_search_scan_of_eqIgnoreCase _ str_source (by decide) (by decide) e)

/-- Witness of the amended C12 on `5 <Chest` in the example world: `strtof`
stops at the space, and the string is looked up as a name, which names
nothing. -/
theorem get_target_objects_malformed_radius_witness :
    (exampleHost.strtof str_5_space_lt_Chest).2 < 2 ∧
    radius_search exampleHost str_5_space_lt_Chest = none ∧
    get_target_objects exampleHost str_5_space_lt_Chest none =
      some ([], [HostCall.GetObjectNamed str_5_space_lt_Chest]) :=
  ⟨by decide,
    (get_target_objects_malformed_radius exampleHost ['5', ' '] str_Chest '<' none
      (Or.inl rfl) (by decide) (Or.inr (by decide))).1,
    (get_target_objects_malformed_radius exampleHost ['5', ' '] str_Chest '<' none
      (Or.inl rfl) (by decide) (Or.inr (by decide))).2 (by decide) (by decide) (by decide)⟩

/-- C13: whenever `radius_search` returns true, the string is a text `pre`
without comparator, a comparator `c` and the returned archetype string, in that
order, so `c` is the first `<` or `>` of the string; `lessthan` is true exactly
when `c` is `<`; the radius is the value `strtof` read from the start of the
string; `strtof` read something and stopped at a character equal to `c`, which
is the comparator itself (the numeral is the whole of `pre`) as soon as
`strtof` reads no comparator. -/
theorem radius_search_outputs (h : Host) (dest : List Char) (radius : F32) (lessthan : Bool)
    (archetype : List Char) (hr : radius_search h dest = some (radius, lessthan, archetype)) :
    ∃ (pre : List Char) (c : Char),
      dest = pre ++ c :: archetype ∧ (c = '<' ∨ c = '>') ∧
      (∀ x ∈ pre, x ≠ '<' ∧ x ≠ '>') ∧
      (lessthan = true ↔ c = '<') ∧
      radius = (h.strtof dest).1 ∧
      (h.strtof dest).2 ≠ 0 ∧
      dest.getD (h.strtof dest).2 NUL = c ∧
      (StrtofReadsNoComparator h dest → (h.strtof dest).2 = pre.length) := by
  unfold radius_search at hr
  cases hs : radius_search_scan dest with
  | none =>
    rw [hs] at hr
    simp at hr
  | some t =>
    obtain ⟨mode, arch⟩ := t
    rw [hs] at hr
    dsimp only at hr
    split_ifs at hr with hcond
    simp only [Option.some.injEq, Prod.mk.injEq] at hr
    obtain ⟨hrad, hlt, harch⟩ := hr
    subst harch
    obtain ⟨pre, hdest, hc, hpre⟩ := radius_search_scan_some dest arch mode hs
    have hne : (h.strtof dest).2 ≠ 0 := fun e => hcond (Or.inl e)
    have hget : dest.getD (h.strtof dest).2 NUL = mode := by
      by_contra e
      exact hcond (Or.inr e)
    refine ⟨pre, mode, hdest, hc, hpre, ?_, hrad.symm, hne, hget, ?_⟩
    · rw [← hlt]
      simp
    · intro hsane
      rcases Nat.lt_trichotomy (h.strtof dest).2 pre.length with hl | he | hg
      · exfalso
        have hm := getD_append_left_mem pre (mode :: arch) _ hl
        rw [← hdest, hget] at hm
        have := hpre mode hm
        rcases hc with rfl | rfl
        · exact this.1 rfl
        · exact this.2 rfl
      · exact he
      · exfalso
        have := hsane pre.length hg
        have hat := getD_append_length pre arch mode
        rw [← hdest] at hat
        rw [hat] at this
        rcases hc with rfl | rfl
        · exact this.1 rfl
        · exact this.2 rfl

/-- Witness of C13 on `5.00<Chest` in the example world: the radius is 5,
`lessthan` is true and the archetype is `Chest`. -/
theorem radius_search_outputs_witness :
    radius_search exampleHost str_5_00_lt_Chest = some (F32.fin 5, true, str_Chest) ∧
    StrtofReadsNoComparator exampleHost str_5_00_lt_Chest ∧
    ∃ (pre : List Char) (c : Char),
      str_5_00_lt_Chest = pre ++ c :: str_Chest ∧ c = '<' ∧
      (exampleHost.strtof str_5_00_lt_Chest).2 = pre.length := by
  refine ⟨by decide, by decide, ?_⟩
  obtain ⟨pre, c, h1, _, _, h4, _, _, _, h8⟩ :=
    radius_search_outputs exampleHost str_5_00_lt_Chest (F32.fin 5) true str_Chest (by decide)
  exact ⟨pre, c, h1, h4.mp rfl, h8 (by decide)⟩

/-- C14: for every destination string that starts with `*` or `@`,
`get_target_objects` returns the unfiltered archetype expansion of the rest of
the string, direct for `*` and transitive for `@`: the first engine call looks
the whole rest up as a name, and no position is asked for, so no radius filter
is applied, whatever the rest holds. -/
theorem get_target_objects_prefix_precedence (h : Host) (rest : List Char)
    (pMsg : Option sScrMsg) :
    ∃ star full : List Int × List HostCall,
      get_target_objects h ('*' :: rest) pMsg = some star ∧
      get_target_objects h ('@' :: rest) pMsg = some full ∧
      star.1 = Spec.ArchetypeMembers h rest false ∧
      full.1 = Spec.ArchetypeMembers h rest true ∧
      star.2.head? = some (HostCall.GetObjectNamed rest) ∧
      full.2.head? = some (HostCall.GetObjectNamed rest) ∧
      (∀ c ∈ star.2, c.isPosition = false) ∧
      (∀ c ∈ full.2, c.isPosition = false) := by
  have hmem : ∀ (do_full : Bool),
      (archetype_search h [] rest do_full false 0 (F32.fin 0) false).1 =
        Spec.ArchetypeMembers h rest do_full := by
    intro do_full
    rw [archetype_search_fst, archetype_keep_no_radius]
    unfold Spec.ArchetypeMembers
    by_cases hN : h.GetObjectNamed rest ≤ 0
    · have hn : ¬ 0 < h.GetObjectNamed rest := by omega
      rw [if_pos hN, if_neg hn]
      cases do_full <;> simp [queryFlags, fullFlags, directFlags]
    · have hn : 0 < h.GetObjectNamed rest := by omega
      rw [if_neg hN, if_pos hn]
      rfl
  have hcalls : ∀ (do_full : Bool),
      (archetype_search h [] rest do_full false 0 (F32.fin 0) false).2.head? =
        some (HostCall.GetObjectNamed rest) ∧
      ∀ c ∈ (archetype_search h [] rest do_full false 0 (F32.fin 0) false).2,
        c.isPosition = false := by
    intro do_full
    by_cases hN : h.GetObjectNamed rest ≤ 0
    · rw [archetype_search_abstract_snd h [] rest do_full false 0 (F32.fin 0) false hN]
      refine ⟨by simp, ?_⟩
      intro c hc
      simp at hc
      rcases hc with rfl | rfl <;> rfl
    · rw [archetype_search_concrete h [] rest do_full false 0 (F32.fin 0) false (by omega)]
      refine ⟨by simp, ?_⟩
      intro c hc
      simp at hc
      subst hc
      rfl
  exact ⟨_, _, get_target_objects_star h rest pMsg, get_target_objects_at h rest pMsg,
    hmem false, hmem true, (hcalls false).1, (hcalls true).1, (hcalls false).2,
    (hcalls true).2⟩

/-- Witness of C14 on `*5<Chest` in the second world: the rest `5<Chest` is a
radius search by itself, yet the archetype named `5<Chest` is looked up and its
direct concrete children returned. -/
theorem get_target_objects_prefix_precedence_witness :
    radius_search oddHost str_5_lt_Chest = some (F32.fin 5, true, str_Chest) ∧
    get_target_objects oddHost ('*' :: str_5_lt_Chest) none =
      some ([11, 12], [HostCall.GetObjectNamed str_5_lt_Chest, HostCall.Query (-6) 1]) ∧
    ∃ star full : List Int × List HostCall,
      get_target_objects oddHost ('*' :: str_5_lt_Chest) none = some star ∧
      get_target_objects oddHost ('@' :: str_5_lt_Chest) none = some full ∧
      star.1 = [11, 12] ∧ full.1 = [11, 12, 13] := by
  refine ⟨by decide, by decide, ?_⟩
  obtain ⟨star, full, h1, h2, h3, h4, _⟩ :=
    get_target_objects_prefix_precedence oddHost str_5_lt_Chest none
  exact ⟨star, full, h1, h2, by rw [h3]; decide, by rw [h4]; decide⟩

/-- C15: `archetype_search` only appends. The list afterwards is the initial
list followed by what the search finds starting from the empty list; and when
the name is not that of a concrete object and the directory returns the query
sequence `q`, it is the initial list followed by the elements of `q` that are
concrete and, in a radius search, pass the distance test, in the order and with
the multiplicity they have in `q`. -/
theorem archetype_search_appends (h : Host) (m : List Int) (archetype : List Char)
    (do_full do_radius : Bool) (from_obj : Int) (radius : F32) (lessthan : Bool) :
    (archetype_search h m archetype do_full do_radius from_obj radius lessthan).1 =
      m ++ (archetype_search h [] archetype do_full do_radius from_obj radius lessthan).1 ∧
    (∀ q : List Int, h.GetObjectNamed archetype ≤ 0 →
      h.Query (h.GetObjectNamed archetype)
        (if do_full then h.kTraitQueryChildren ||| h.kTraitQueryFull
          else h.kTraitQueryChildren) = some q →
      (archetype_search h m archetype do_full do_radius from_obj radius lessthan).1 =
        m ++ q.filter (fun o => decide (0 < o) &&
          (!do_radius || distance_check lessthan (distanceFrom h from_obj o) radius))) := by
  constructor
  · rw [archetype_search_fst h m, archetype_search_fst h []]
    simp
  · intro q hN hq
    rw [archetype_search_abstract_fst h m archetype do_full do_radius from_obj radius
      lessthan hN]
    have hqo : queryObjects h (h.GetObjectNamed archetype) (queryFlags h do_full) = q := by
      unfold queryObjects queryFlags fullFlags directFlags
      rw [hq]
      rfl
    rw [hqo]
    congr 1

/-- Witness of C15 in the example world: a radius search of `Chest` within 5
of object 2, starting from the list holding 100 and 3, appends object 3. -/
theorem archetype_search_appends_witness :
    exampleHost.GetObjectNamed str_Chest ≤ 0 ∧
    exampleHost.Query (exampleHost.GetObjectNamed str_Chest) 3 = some [3, -2, 4, 9, 0] ∧
    (archetype_search exampleHost [100, 3] str_Chest true true 2 (F32.fin 5) true).1 =
      [100, 3, 3] := by
  refine ⟨by decide, by decide, ?_⟩
  rw [(archetype_search_appends exampleHost [100, 3] str_Chest true true 2 (F32.fin 5)
    true).2 [3, -2, 4, 9, 0] (by decide) (by decide)]
  decide

/-- Evaluation for C16: with a null message, `get_target_objects` has no
result on `[me]` and on `[source]` in any world, nor on the radius search
`5<Chest` in the example world: each reads a field of the message. -/
theorem get_target_objects_null_message :
    (∀ h : Host, get_target_objects h str_me none = none) ∧
    (∀ h : Host, get_target_objects h str_source none = none) ∧
    get_target_objects exampleHost str_5_lt_Chest none = none := by
  refine ⟨?_, ?_, by decide⟩
  · intro h
    have h1 : _stricmp str_me str_me = 0 := by decide
    simp [get_target_objects, h1]
  · intro h
    have h1 : _stricmp str_source str_me ≠ 0 := by decide
    have h2 : _stricmp str_source str_source = 0 := by decide
    simp [get_target_objects, h1, h2]

/-- C17: for every variable name, variable store and default `d`, the `long`
form of `get_qvar_value` returns the value the store holds for the name when
the variable exists, and `d` itself when it does not. -/
theorem get_qvar_value_default (pQS : QuestSrv) (qvar : List Char) (d : Int) :
    (pQS.Exists qvar = true → get_qvar_value pQS qvar d = pQS.Get qvar) ∧
    (pQS.Exists qvar = false → get_qvar_value pQS qvar d = d) := by
  constructor
  · intro he
    simp [get_qvar_value, he]
  · intro he
    simp [get_qvar_value, he]

/-- Witness of C17: in the example store `spd` reads 55 whatever the default,
and the missing `Ghost` reads as the default 3. -/
theorem get_qvar_value_default_witness :
    exampleQuests.Exists str_spd = true ∧ get_qvar_value exampleQuests str_spd 3 = 55 ∧
    exampleQuests.Exists str_Ghost = false ∧ get_qvar_value exampleQuests str_Ghost 3 = 3 :=
  ⟨by decide,
    ((get_qvar_value_default exampleQuests str_spd 3).1 (by decide)).trans (by decide),
    by decide, (get_qvar_value_default exampleQuests str_Ghost 3).2 (by decide)⟩

/-- Evaluation for C18: on `spd/10` the float form of `get_qvar_value` has no
result when the copy of the string is allocated, and returns the default
otherwise; it has no access to the variable store. -/
theorem get_qvar_value_float_spd :
    get_qvar_value_float allocAlways str_spd_div_10 (F32.fin 0) = none ∧
    ∀ (Alloc : Nat → Bool) (d : F32),
      get_qvar_value_float Alloc str_spd_div_10 d = none ∨
      get_qvar_value_float Alloc str_spd_div_10 d = some d := by
  refine ⟨by decide, ?_⟩
  intro Alloc d
  unfold get_qvar_value_float
  split_ifs
  · exact Or.inr rfl
  · exact Or.inl rfl

/-- Evaluation for C19: on `missing/10` with the default 2 the float form of
`get_qvar_value` has no result when the copy of the string is allocated: the
default is returned only when the allocation fails. -/
theorem get_qvar_value_float_missing :
    get_qvar_value_float allocAlways str_missing_div_10 (F32.fin 2) = none ∧
    ∀ (Alloc : Nat → Bool) (qvar : List Char) (d : F32),
      Alloc (qvar.length + 1) = true → get_qvar_value_float Alloc qvar d = none := by
  refine ⟨by decide, ?_⟩
  intro Alloc qvar d ha
  simp [get_qvar_value_float, ha]

theorem and_two_pow_ne_zero (n i : Nat) : n &&& 2 ^ i ≠ 0 ↔ n.testBit i = true := by
  rw [Nat.and_two_pow]
  cases n.testBit i <;> simp

/-- C20: for every integer `animc`, `compatible_animc` returns false exactly
when the `kNoLimit` bit (bit 0) or the `kWrap` bit (bit 2) of `animc` is set;
two values that agree on these two bits give the same result, whatever their
other bits. -/
theorem compatible_animc_iff (animc : Int) :
    (compatible_animc animc = false ↔
      ((int_bits animc).testBit 0 = true ∨ (int_bits animc).testBit 2 = true)) ∧
    (∀ other : Int, (int_bits other).testBit 0 = (int_bits animc).testBit 0 →
      (int_bits other).testBit 2 = (int_bits animc).testBit 2 →
      compatible_animc other = compatible_animc animc) := by
  have key : ∀ v : Int, compatible_animc v =
      !((int_bits v).testBit 0 || (int_bits v).testBit 2) := by
    intro v
    have h0 := and_two_pow_ne_zero (int_bits v) 0
    have h2 := and_two_pow_ne_zero (int_bits v) 2
    have e0 : (2 : Nat) ^ 0 = kNoLimit := by decide
    have e2 : (2 : Nat) ^ 2 = kWrap := by decide
    rw [e0] at h0
    rw [e2] at h2
    unfold compatible_animc
    congr 2
    · rw [Bool.eq_iff_iff]
      simp only [decide_eq_true_eq]
      exact h0
    · rw [Bool.eq_iff_iff]
      simp only [decide_eq_true_eq]
      exact h2
  constructor
  · rw [key]
    cases (int_bits animc).testBit 0 <;> cases (int_bits animc).testBit 2 <;> simp
  · intro other h0 h2
    rw [key, key, h0, h2]

/-- Witness of C20: with every flag but `kNoLimit` and `kWrap` set the result
is true; adding either of the two makes it false, also for a negative value. -/
theorem compatible_animc_iff_witness :
    compatible_animc 0x7a = true ∧ compatible_animc 0x7b = false ∧
    compatible_animc 0x7e = false ∧ compatible_animc (-1) = false ∧
    (compatible_animc 0x7b = false ↔
      ((int_bits 0x7b).testBit 0 = true ∨ (int_bits 0x7b).testBit 2 = true)) :=
  ⟨by decide, by decide, by decide, by decide, (compatible_animc_iff 0x7b).1⟩

/-! ## Claims on the smoothing script -/

theorem F32.ge_of_not_lt (a b : F32) (ha : F32.isNaN a = false) (hb : F32.isNaN b = false)
    (hab : F32.lt a b = false) : F32.ge a b = true := by
  rcases F32.trichotomy a b ha hb with hl | he | hg
  · rw [hl] at hab
    exact absurd hab (by simp)
  · simp [F32.ge, he]
  · simp [F32.ge, F32.gt, hg]

theorem F32.ge_self (a : F32) (ha : F32.isNaN a = false) : F32.ge a a = true := by
  cases a <;> simp_all [F32.ge, F32.gt, F32.lt, F32.feq, F32.isNaN]

theorem F32.gt_of_not_le (a b : F32) (ha : F32.isNaN a = false) (hb : F32.isNaN b = false)
    (hab : F32.le a b = false) : F32.gt a b = true := by
  simp only [F32.le, Bool.or_eq_false_iff] at hab
  rcases F32.trichotomy a b ha hb with hl | he | hg
  · rw [hl] at hab
    exact absurd hab.1 (by simp)
  · rw [he] at hab
    exact absurd hab.2 (by simp)
  · exact hg

theorem F32.lt_trans (a b c : F32) (hab : F32.lt a b = true) (hbc : F32.lt b c = true) :
    F32.lt a c = true := by
  cases a <;> cases b <;> cases c <;> simp_all [F32.lt]
  exact hab.trans hbc

theorem F32.lt_of_feq_of_lt (a b c : F32) (hab : F32.feq a b = true)
    (hbc : F32.lt b c = true) : F32.lt a c = true := by
  cases a <;> cases b <;> cases c <;> simp_all [F32.lt, F32.feq]

/-- Evaluation for C21: about its x axis the example object has the bounds 0
to 90, and `valid_rotate_bounds` returns true although the low value, 0, is
not positive: the test on the low value is `low >= 0.0f`. -/
theorem valid_rotate_bounds_zero_low :
    (exampleTweq.GetVector "CfgTweqRotate".toList (axis_names 0)).y = F32.fin 0 ∧
    (exampleTweq.GetVector "CfgTweqRotate".toList (axis_names 0)).z = F32.fin 90 ∧
    F32.gt (F32.fin 0) (F32.fin 0) = false ∧
    valid_rotate_bounds exampleTweq 0 = true := by
  refine ⟨by decide, by decide, by decide, by decide⟩

/-- What `valid_rotate_bounds` tests: it returns true exactly when the low
value of the axis is greater than or equal to 0 and its high value is greater
than its low value, in which case the high value is positive; equal low and
high, or a low greater than the high, give false. -/
theorem valid_rotate_bounds_iff (h : TweqHost) (axis : Nat) :
    (valid_rotate_bounds h axis = true ↔
      (F32.ge (h.GetVector "CfgTweqRotate".toList (axis_names axis)).y (F32.fin 0) = true ∧
        F32.gt (h.GetVector "CfgTweqRotate".toList (axis_names axis)).z
          (h.GetVector "CfgTweqRotate".toList (axis_names axis)).y = true)) ∧
    (valid_rotate_bounds h axis = true →
      F32.gt (h.GetVector "CfgTweqRotate".toList (axis_names axis)).z (F32.fin 0) = true) ∧
    (F32.feq (h.GetVector "CfgTweqRotate".toList (axis_names axis)).y
        (h.GetVector "CfgTweqRotate".toList (axis_names axis)).z = true →
      valid_rotate_bounds h axis = false) ∧
    (F32.gt (h.GetVector "CfgTweqRotate".toList (axis_names axis)).y
        (h.GetVector "CfgTweqRotate".toList (axis_names axis)).z = true →
      valid_rotate_bounds h axis = false) := by
  unfold valid_rotate_bounds
  dsimp only
  generalize h.GetVector "CfgTweqRotate".toList (axis_names axis) = v
  refine ⟨by simp [Bool.and_eq_true], ?_, ?_, ?_⟩
  · intro hv
    simp only [Bool.and_eq_true] at hv
    obtain ⟨h1, h2⟩ := hv
    simp only [F32.ge, F32.gt, Bool.or_eq_true] at h1
    rcases h1 with hl | he
    · exact F32.lt_trans _ _ _ hl h2
    · rw [F32.feq_symm] at he
      exact F32.lt_of_feq_of_lt _ _ _ he h2
  · intro he
    cases hlt : F32.lt v.y v.z
    · simp [F32.gt, hlt]
    · rw [F32.feq_of_lt _ _ hlt] at he
      exact absurd he (by simp)
  · intro hg
    have := F32.lt_asymm _ _ hg
    simp [F32.gt, this]

/-- On the example object the bounds of the x axis, 0 to 90, are valid; those
of the z axis, 90 to 90, are not. -/
theorem valid_rotate_bounds_iff_example :
    valid_rotate_bounds exampleTweq 0 = true ∧
    F32.feq (exampleTweq.GetVector "CfgTweqRotate".toList (axis_names 2)).y
      (exampleTweq.GetVector "CfgTweqRotate".toList (axis_names 2)).z = true ∧
    valid_rotate_bounds exampleTweq 2 = false :=
  ⟨(valid_rotate_bounds_iff exampleTweq 0).1.mpr ⟨by decide, by decide⟩, by decide,
    (valid_rotate_bounds_iff exampleTweq 2).2.2.1 (by decide)⟩

/-- Evaluation for C27: in the example world `radius_search` returns true on
`5<`, whose comparator is its last character, with the radius 5 and an empty
archetype string; `get_target_objects` then looks the empty name up and
queries the hierarchy. -/
theorem radius_search_empty_archetype :
    radius_search exampleHost str_5_lt = some (F32.fin 5, true, []) ∧
    get_target_objects exampleHost str_5_lt (some exampleMsg) =
      some ([], [HostCall.Position 2, HostCall.GetObjectNamed [], HostCall.Query 0 3]) := by
  refine ⟨by decide, by decide⟩

theorem char_le_iff (a b : Char) : a ≤ b ↔ a.toNat ≤ b.toNat := by
  show a.val ≤ b.val ↔ _
  simp only [Char.toNat]
  exact UInt32.le_def

theorem toLower_axis_range (c : Char) (hc : 'x' ≤ c.toLower ∧ c.toLower ≤ 'z') :
    (c.toLower.toNat - 'x'.toNat = 0 ∧ (c = 'x' ∨ c = 'X')) ∨
    (c.toLower.toNat - 'x'.toNat = 1 ∧ (c = 'y' ∨ c = 'Y')) ∨
    (c.toLower.toNat - 'x'.toNat = 2 ∧ (c = 'z' ∨ c = 'Z')) := by
  rw [char_le_iff, char_le_iff] at hc
  have hx : 'x'.toNat = 120 := by decide
  have hz : 'z'.toNat = 122 := by decide
  rw [hx] at hc
  rw [hz] at hc
  rw [hx]
  unfold Char.toLower at hc ⊢
  dsimp only at hc ⊢
  split_ifs at hc ⊢ with hu
  · obtain ⟨h1, h2⟩ := hu
    have h3 : c.toNat ≥ 65 := h1
    have h4 : c.toNat ≤ 90 := h2
    have key : ∀ n, 65 ≤ n → n ≤ 90 → (Char.ofNat (n + 32)).toNat = n + 32 := by
      intro n h65 h90
      interval_cases n <;> decide
    rw [key _ h3 h4] at hc ⊢
    have : c.toNat = 88 ∨ c.toNat = 89 ∨ c.toNat = 90 := by omega
    rcases this with e | e | e
    · left; exact ⟨by omega, Or.inr (char_toNat_inj (e.trans (by decide)))⟩
    · right; left; exact ⟨by omega, Or.inr (char_toNat_inj (e.trans (by decide)))⟩
    · right; right; exact ⟨by omega, Or.inr (char_toNat_inj (e.trans (by decide)))⟩
  · have : c.toNat = 120 ∨ c.toNat = 121 ∨ c.toNat = 122 := by omega
    rcases this with e | e | e
    · left; exact ⟨by omega, Or.inl (char_toNat_inj (e.trans (by decide)))⟩
    · right; left; exact ⟨by omega, Or.inl (char_toNat_inj (e.trans (by decide)))⟩
    · right; right; exact ⟨by omega, Or.inl (char_toNat_inj (e.trans (by decide)))⟩

theorem toLower_axis_lt (c : Char) (hc : 'x' ≤ c.toLower ∧ c.toLower ≤ 'z') :
    c.toLower.toNat - 'x'.toNat < 3 := by
  rcases toLower_axis_range c hc with h | h | h <;> omega

theorem countSet_three (f : Nat → Bool) :
    countSet f 3 = (if f 0 then 1 else 0) + (if f 1 then 1 else 0) + (if f 2 then 1 else 0) := by
  unfold countSet
  have hr : List.range 3 = [0, 1, 2] := by decide
  rw [hr]
  cases h0 : f 0 <;> cases h1 : f 1 <;> cases h2 : f 2 <;> simp [List.filter, h0, h1, h2]

theorem countSet_three_update (f : Nat → Bool) (k : Nat) (hk : k < 3) (hf : f k = false) :
    countSet (Function.update f k true) 3 = countSet f 3 + 1 := by
  rw [countSet_three, countSet_three]
  interval_cases k
  · simp [Function.update, hf]; omega
  · simp [Function.update, hf]; omega
  · simp [Function.update, hf]

theorem init_rotate_onoffctrl_loop_fst (axes : List Char) (f : Nat → Bool) (n : Int)
    (i : Nat) :
    (init_rotate_onoffctrl_loop axes (f, n)).1 i = (f i || axisHit axes i) := by
  induction axes generalizing f n with
  | nil => simp [init_rotate_onoffctrl_loop, axisHit]
  | cons c rest ih =>
    unfold init_rotate_onoffctrl_loop
    dsimp only
    have hcons : axisHit (c :: rest) i =
        ((decide ('x' ≤ c.toLower ∧ c.toLower ≤ 'z') &&
          decide (c.toLower.toNat - 'x'.toNat = i)) || axisHit rest i) := by
      simp [axisHit]
    rw [hcons]
    generalize c.toLower.toNat - 'x'.toNat = k
    by_cases hr : ('x' ≤ c.toLower ∧ c.toLower ≤ 'z')
    · rw [if_pos hr, decide_eq_true hr, Bool.true_and]
      by_cases hf : f k = false
      · rw [if_pos hf, ih]
        by_cases hi : k = i
        · subst hi
          simp
        · have hi2 : i ≠ k := fun e => hi e.symm
          simp [Function.update_noteq hi2, hi]
      · rw [if_neg hf, ih]
        by_cases hi : k = i
        · subst hi
          have : f k = true := by simpa using hf
          simp [this]
        · simp [hi]
    · rw [if_neg hr, decide_eq_false hr, ih]
      simp

theorem init_rotate_onoffctrl_loop_snd (axes : List Char) (f : Nat → Bool) (n : Int) :
    (init_rotate_onoffctrl_loop axes (f, n)).2 =
      n + (countSet (init_rotate_onoffctrl_loop axes (f, n)).1 3 : Int) - (countSet f 3 : Int) := by
  induction axes generalizing f n with
  | nil => simp [init_rotate_onoffctrl_loop]
  | cons c rest ih =>
    unfold init_rotate_onoffctrl_loop
    dsimp only
    split_ifs with hr hf
    · rw [ih, countSet_three_update f _ (toLower_axis_lt c hr) hf]
      push_cast
      ring
    · exact ih f n
    · exact ih f n

theorem axisHit_iff (axes : List Char) (i : Nat) (lo up : Char)
    (hlo : 'x' ≤ lo.toLower ∧ lo.toLower ≤ 'z') (hup : 'x' ≤ up.toLower ∧ up.toLower ≤ 'z')
    (hlo_i : lo.toLower.toNat - 'x'.toNat = i) (hup_i : up.toLower.toNat - 'x'.toNat = i)
    (honly : ∀ c : Char, ('x' ≤ c.toLower ∧ c.toLower ≤ 'z') →
      c.toLower.toNat - 'x'.toNat = i → c = lo ∨ c = up) :
    axisHit axes i = true ↔ (lo ∈ axes ∨ up ∈ axes) := by
  unfold axisHit
  rw [List.any_eq_true]
  constructor
  · rintro ⟨c, hc, hcond⟩
    rw [Bool.and_eq_true, decide_eq_true_eq, decide_eq_true_eq] at hcond
    rcases honly c hcond.1 hcond.2 with rfl | rfl
    · exact Or.inl hc
    · exact Or.inr hc
  · rintro (hm | hm)
    · refine ⟨lo, hm, ?_⟩
      rw [Bool.and_eq_true, decide_eq_true_eq, decide_eq_true_eq]
      exact ⟨hlo, hlo_i⟩
    · refine ⟨up, hm, ?_⟩
      rw [Bool.and_eq_true, decide_eq_true_eq, decide_eq_true_eq]
      exact ⟨hup, hup_i⟩

theorem axisHit_x (axes : List Char) : axisHit axes 0 = true ↔ ('x' ∈ axes ∨ 'X' ∈ axes) := by
  apply axisHit_iff axes 0 'x' 'X' (by decide) (by decide) (by decide) (by decide)
  intro c hc hi
  rcases toLower_axis_range c hc with h | h | h
  · exact h.2
  · omega
  · omega

theorem axisHit_y (axes : List Char) : axisHit axes 1 = true ↔ ('y' ∈ axes ∨ 'Y' ∈ axes) := by
  apply axisHit_iff axes 1 'y' 'Y' (by decide) (by decide) (by decide) (by decide)
  intro c hc hi
  rcases toLower_axis_range c hc with h | h | h
  · omega
  · exact h.2
  · omega

theorem axisHit_z (axes : List Char) : axisHit axes 2 = true ↔ ('z' ∈ axes ∨ 'Z' ∈ axes) := by
  apply axisHit_iff axes 2 'z' 'Z' (by decide) (by decide) (by decide) (by decide)
  intro c hc hi
  rcases toLower_axis_range c hc with h | h | h
  · omega
  · omega
  · exact h.2

theorem init_flags_three (f : Nat → Bool) (all : Bool) :
    (List.range RotAxisMax).foldl
      (fun (st : (Nat → Bool) × Int) axis =>
        (Function.update st.1 axis all, if all then st.2 + 1 else st.2)) (f, 0) =
      (Function.update (Function.update (Function.update f 0 all) 1 all) 2 all,
        if all then 3 else 0) := by
  have hr : List.range RotAxisMax = [0, 1, 2] := by decide
  rw [hr]
  cases all <;> simp [List.foldl]

theorem NUL_not_mem_all : NUL ∉ "all".toList := by decide

/-- C25: for every non-empty axes string, `init_rotate_onoffctrl` selects the
three axes and returns 3 when the string is `all` in any letter case;
otherwise it selects the x axis exactly when the string holds `x` or `X`, the y
axis exactly when it holds `y` or `Y`, the z axis exactly when it holds `z` or
`Z`, whatever its other characters, and returns the number of axes selected. -/
theorem init_rotate_onoffctrl_select (axis_smooth : Nat → Bool) (axes : List Char)
    (hne : axes ≠ []) (hnul : NUL ∉ axes) :
    (eqIgnoreCase axes "all".toList →
      (init_rotate_onoffctrl axis_smooth (some axes)).2 = 3 ∧
      ∀ i, i < RotAxisMax → (init_rotate_onoffctrl axis_smooth (some axes)).1 i = true) ∧
    (¬ eqIgnoreCase axes "all".toList →
      ((init_rotate_onoffctrl axis_smooth (some axes)).1 0 = true ↔
        ('x' ∈ axes ∨ 'X' ∈ axes)) ∧
      ((init_rotate_onoffctrl axis_smooth (some axes)).1 1 = true ↔
        ('y' ∈ axes ∨ 'Y' ∈ axes)) ∧
      ((init_rotate_onoffctrl axis_smooth (some axes)).1 2 = true ↔
        ('z' ∈ axes ∨ 'Z' ∈ axes)) ∧
      (init_rotate_onoffctrl axis_smooth (some axes)).2 =
        (countSet (init_rotate_onoffctrl axis_smooth (some axes)).1 RotAxisMax : Int)) := by
  cases axes with
  | nil => exact absurd rfl hne
  | cons c cs =>
    have hcmp : strcasecmp (c :: cs) "all".toList = 0 ↔ eqIgnoreCase (c :: cs) "all".toList :=
      stricmp_eq_zero_iff (c :: cs) "all".toList hnul NUL_not_mem_all
    constructor
    · intro hall
      have h0 : strcasecmp (c :: cs) "all".toList = 0 := hcmp.mpr hall
      unfold init_rotate_onoffctrl
      dsimp only
      rw [init_flags_three, decide_eq_true h0]
      refine ⟨rfl, ?_⟩
      intro i hi
      have : i < 3 := hi
      interval_cases i <;> simp [Function.update]
    · intro hnall
      have h0 : ¬ strcasecmp (c :: cs) "all".toList = 0 := fun e => hnall (hcmp.mp e)
      have hres : init_rotate_onoffctrl axis_smooth (some (c :: cs)) =
          init_rotate_onoffctrl_loop (c :: cs)
            (Function.update (Function.update (Function.update axis_smooth 0 false) 1 false)
              2 false, 0) := by
        unfold init_rotate_onoffctrl
        dsimp only
        rw [init_flags_three, decide_eq_false h0]
        rfl
      rw [hres]
      refine ⟨?_, ?_, ?_, ?_⟩
      · rw [init_rotate_onoffctrl_loop_fst, ← axisHit_x]
        simp [Function.update]
      · rw [init_rotate_onoffctrl_loop_fst, ← axisHit_y]
        simp [Function.update]
      · rw [init_rotate_onoffctrl_loop_fst, ← axisHit_z]
        simp [Function.update]
      · rw [init_rotate_onoffctrl_loop_snd]
        have hz : countSet (Function.update (Function.update
            (Function.update axis_smooth 0 false) 1 false) 2 false) 3 = 0 := by
          rw [countSet_three]
          simp [Function.update]
        rw [hz]
        have : RotAxisMax = 3 := rfl
        rw [this]
        simp

/-- Witness of C25: `X,Z` selects the x and z axes and returns 2, `none`
selects no axis and returns 0, and `All` selects the three axes and returns 3. -/
theorem init_rotate_onoffctrl_select_witness :
    ((init_rotate_onoffctrl exampleState.axis_smooth (some str_X_Z)).1 0 = true ∧
      (init_rotate_onoffctrl exampleState.axis_smooth (some str_X_Z)).1 1 = false ∧
      (init_rotate_onoffctrl exampleState.axis_smooth (some str_X_Z)).1 2 = true ∧
      (init_rotate_onoffctrl exampleState.axis_smooth (some str_X_Z)).2 = 2) ∧
    (init_rotate_onoffctrl exampleState.axis_smooth (some str_none)).2 = 0 ∧
    ¬ ('x' ∈ str_none ∨ 'X' ∈ str_none) ∧
    (init_rotate_onoffctrl exampleState.axis_smooth (some str_none)).1 0 = false ∧
    (init_rotate_onoffctrl exampleState.axis_smooth (some str_All)).2 = 3 := by
  refine ⟨⟨?_, by decide, by decide, by decide⟩, by decide, by decide, ?_, ?_⟩
  · exact ((init_rotate_onoffctrl_select exampleState.axis_smooth str_X_Z (by decide)
      (by decide)).2 (by decide)).1.mpr (Or.inr (by decide))
  · have hiff := ((init_rotate_onoffctrl_select exampleState.axis_smooth str_none (by decide)
      (by decide)).2 (by decide)).1
    cases hv : (init_rotate_onoffctrl exampleState.axis_smooth (some str_none)).1 0
    · rfl
    · exact absurd (hiff.mp hv) (by decide)
  · exact ((init_rotate_onoffctrl_select exampleState.axis_smooth str_All (by decide)
      (by decide)).1 (by decide)).1

theorem init_rotate_axis_self (h : TweqHost) (st : (Nat → Bool) × (Nat → Nat → F32) × Int)
    (k : Nat) (hk : (init_rotate_axis h st k).1 k = true) :
    F32.le ((init_rotate_axis h st k).2.1 k MaxRate) ((init_rotate_axis h st k).2.1 k MinRate)
      = false ∧ valid_rotate_bounds h k = true := by
  unfold init_rotate_axis at hk ⊢
  dsimp only at hk ⊢
  split_ifs at hk ⊢ with h1 h2 h3
  · simp at hk
  · simp at hk
  · exact ⟨by simpa using h2, by simpa using h3⟩
  · exact absurd hk h1

theorem init_rotate_axis_other (h : TweqHost) (st : (Nat → Bool) × (Nat → Nat → F32) × Int)
    (k j : Nat) (hjk : j ≠ k) :
    (init_rotate_axis h st k).1 j = st.1 j ∧ (init_rotate_axis h st k).2.1 j = st.2.1 j := by
  unfold init_rotate_axis
  dsimp only
  split_ifs with h1 h2 h3 <;> simp [setRate, Function.update_noteq hjk]

theorem init_rotate_axis_fold (h : TweqHost) (l : List Nat) :
    ∀ (st : (Nat → Bool) × (Nat → Nat → F32) × Int) (done : List Nat),
      (∀ j ∈ done, st.1 j = true →
        F32.le (st.2.1 j MaxRate) (st.2.1 j MinRate) = false ∧ valid_rotate_bounds h j = true) →
      ∀ j, (j ∈ done ∨ j ∈ l) → (l.foldl (init_rotate_axis h) st).1 j = true →
        F32.le ((l.foldl (init_rotate_axis h) st).2.1 j MaxRate)
            ((l.foldl (init_rotate_axis h) st).2.1 j MinRate) = false ∧
          valid_rotate_bounds h j = true := by
  induction l with
  | nil =>
    intro st done hdone j hj hs
    rcases hj with hj | hj
    · exact hdone j hj hs
    · simp at hj
  | cons k rest ih =>
    intro st done hdone j hj hs
    rw [List.foldl_cons] at hs ⊢
    apply ih (init_rotate_axis h st k) (k :: done) _ j _ hs
    · intro i hi hsi
      by_cases hik : i = k
      · subst hik
        exact init_rotate_axis_self h st i hsi
      · have hi2 : i ∈ done := by
          rcases List.mem_cons.mp hi with e | e
          · exact absurd e hik
          · exact e
        obtain ⟨e1, e2⟩ := init_rotate_axis_other h st k i hik
        rw [e1] at hsi
        rw [e2]
        exact hdone i hi2 hsi
    · rcases hj with hj | hj
      · exact Or.inl (List.mem_cons_of_mem _ hj)
      · rcases List.mem_cons.mp hj with e | e
        · exact Or.inl (by rw [e]; exact List.mem_cons_self _ _)
        · exact Or.inr e

theorem compatible_animc_eq_bits (v : Int) :
    compatible_animc v = !((int_bits v).testBit 0 || (int_bits v).testBit 2) := by
  have h0 := and_two_pow_ne_zero (int_bits v) 0
  have h2 := and_two_pow_ne_zero (int_bits v) 2
  have e0 : (2 : Nat) ^ 0 = kNoLimit := by decide
  have e2 : (2 : Nat) ^ 2 = kWrap := by decide
  rw [e0] at h0
  rw [e2] at h2
  unfold compatible_animc
  congr 2
  · rw [Bool.eq_iff_iff]
    simp only [decide_eq_true_eq]
    exact h0
  · rw [Bool.eq_iff_iff]
    simp only [decide_eq_true_eq]
    exact h2

theorem ite_motive {α : Type} (P : α → Prop) (c : Prop) [Decidable c] (a b : α)
    (ha : P a) (hb : P b) : P (if c then a else b) := by
  split <;> assumption

theorem init_rotate_cases (h : TweqHost) (s : cScr_TWTweqSmooth)
    (design_note : Option (List Char)) :
    (init_rotate h s design_note).do_tweq_rotate = false ∨
    ∃ st0 : (Nat → Bool) × (Nat → Nat → F32) × Int,
      (init_rotate h s design_note).axis_smooth =
        ((List.range RotAxisMax).foldl (init_rotate_axis h) st0).1 ∧
      (init_rotate h s design_note).rotate_rates =
        ((List.range RotAxisMax).foldl (init_rotate_axis h) st0).2.1 := by
  unfold init_rotate
  dsimp only
  exact ite_motive
    (fun r : cScr_TWTweqSmooth => r.do_tweq_rotate = false ∨
      ∃ st0 : (Nat → Bool) × (Nat → Nat → F32) × Int,
        r.axis_smooth = ((List.range RotAxisMax).foldl (init_rotate_axis h) st0).1 ∧
        r.rotate_rates = ((List.range RotAxisMax).foldl (init_rotate_axis h) st0).2.1)
    _ _ _ (Or.inr ⟨_, rfl, rfl⟩) (Or.inl rfl)

/-- C22, as stated, fails: with a design note that gives `nan` as the minimum
rate of the x axis, `init_rotate` leaves the x axis of the example object
smoothed, with the maximum rate 5 and the minimum rate NaN, and 5 is not
greater than a NaN. -/
theorem init_rotate_nan_counterexample :
    (init_rotate nanTweq exampleState (some [])).do_tweq_rotate = true ∧
    (init_rotate nanTweq exampleState (some [])).axis_smooth 0 = true ∧
    (init_rotate nanTweq exampleState (some [])).rotate_rates 0 MaxRate = F32.fin 5 ∧
    (init_rotate nanTweq exampleState (some [])).rotate_rates 0 MinRate = F32.nan ∧
    F32.gt (F32.fin 5) F32.nan = false := by
  refine ⟨by decide, by decide, by decide, by decide, by decide⟩

/-- C22, amended: after `init_rotate`, for every axis, if `do_tweq_rotate` and
`axis_smooth[axis]` both hold then `rotate_rates[axis][MaxRate]` is not less
than or equal to `rotate_rates[axis][MinRate]`, so it is greater when neither
is a NaN, and `valid_rotate_bounds(axis)` holds. -/
theorem init_rotate_smoothed (h : TweqHost) (s : cScr_TWTweqSmooth)
    (design_note : Option (List Char)) (axis : Nat) (haxis : axis < RotAxisMax)
    (hdo : (init_rotate h s design_note).do_tweq_rotate = true)
    (hsm : (init_rotate h s design_note).axis_smooth axis = true) :
    F32.le ((init_rotate h s design_note).rotate_rates axis MaxRate)
      ((init_rotate h s design_note).rotate_rates axis MinRate) = false ∧
    valid_rotate_bounds h axis = true ∧
    (F32.isNaN ((init_rotate h s design_note).rotate_rates axis MaxRate) = false →
      F32.isNaN ((init_rotate h s design_note).rotate_rates axis MinRate) = false →
      F32.gt ((init_rotate h s design_note).rotate_rates axis MaxRate)
        ((init_rotate h s design_note).rotate_rates axis MinRate) = true) := by
  have hmain : F32.le ((init_rotate h s design_note).rotate_rates axis MaxRate)
      ((init_rotate h s design_note).rotate_rates axis MinRate) = false ∧
      valid_rotate_bounds h axis = true := by
    rcases init_rotate_cases h s design_note with hf | ⟨st0, h1, h2⟩
    · rw [hf] at hdo
      exact absurd hdo (by simp)
    · rw [h1] at hsm
      rw [h2]
      exact init_rotate_axis_fold h (List.range RotAxisMax) st0 [] (by simp) axis
        (Or.inr (List.mem_range.mpr haxis)) hsm
  exact ⟨hmain.1, hmain.2, fun h1 h2 => F32.gt_of_not_le _ _ h1 h2 hmain.1⟩

/-- Witness of the amended C22 on the example object: only the x axis stays
smoothed (the rate about y is 0, the bounds about z are 90 to 90), with the
maximum rate 5 above the minimum rate 1. -/
theorem init_rotate_smoothed_witness :
    (init_rotate exampleTweq exampleState (some [])).do_tweq_rotate = true ∧
    (init_rotate exampleTweq exampleState (some [])).axis_smooth 0 = true ∧
    (init_rotate exampleTweq exampleState (some [])).axis_smooth 1 = false ∧
    (init_rotate exampleTweq exampleState (some [])).axis_smooth 2 = false ∧
    F32.le ((init_rotate exampleTweq exampleState (some [])).rotate_rates 0 MaxRate)
      ((init_rotate exampleTweq exampleState (some [])).rotate_rates 0 MinRate) = false ∧
    valid_rotate_bounds exampleTweq 0 = true := by
  refine ⟨by decide, by decide, by decide, by decide, ?_, ?_⟩
  · exact (init_rotate_smoothed exampleTweq exampleState (some []) 0 (by decide) (by decide)
      (by decide)).1
  · exact (init_rotate_smoothed exampleTweq exampleState (some []) 0 (by decide) (by decide)
      (by decide)).2.1

/-- Evaluation for C23: on the example object, whose first joint has the rate 0
and the minimum rate 1, `init_joints` leaves the first joint smoothed: nothing
compares the two rates. -/
theorem init_joints_rate_not_checked :
    (init_joints exampleTweq exampleState (some [])).map
      (fun s => (s.do_tweq_joints, s.joint_smooth 0, s.joint_rates 0 MaxRate,
        s.joint_rates 0 MinRate)) = some (true, true, F32.fin 0, F32.fin 1) ∧
    F32.gt (F32.fin 0) (F32.fin 1) = false := by
  refine ⟨by decide, by decide⟩

theorem init_joints_onoffctrl_loop_total (h : TweqHost) :
    ∀ (fuel : Nat) (joints : List Char) (st : (Nat → Bool) × Int),
      1 ≤ fuel → joints.length ≤ fuel →
      ∃ r, init_joints_onoffctrl_loop h fuel joints st = some r := by
  intro fuel
  induction fuel with
  | zero =>
    intro joints st h1 _
    omega
  | succ fuel ih =>
    intro joints st _ hlen
    obtain ⟨joint_smooth, count⟩ := st
    unfold init_joints_onoffctrl_loop
    dsimp only
    by_cases h0 : (h.strtol joints).2 = 0
    · rw [if_pos h0]
      exact ⟨_, rfl⟩
    · rw [if_neg h0]
      by_cases hcont : List.drop (h.strtol joints).2 joints ≠ []
      · rw [if_pos hcont]
        have hpos : 0 < (List.drop (h.strtol joints).2 joints).length :=
          List.length_pos.mpr hcont
        rw [List.length_drop] at hpos
        apply ih
        · omega
        · rw [List.length_drop, List.length_drop]
          omega
      · rw [if_neg hcont]
        exact ⟨_, rfl⟩

theorem init_joints_onoffctrl_match (h : TweqHost) :
    ∀ (parsed : Option ((Nat → Bool) × Int)) (st1 : (Nat → Bool) × Int),
      parsed = some st1 →
      (match parsed with
        | none => none
        | some st1 =>
          if h.Possessed "CfgTweqJoints".toList then
            some ((List.range JointCount).foldl (init_joints_onoffctrl_check h) st1)
          else some st1) =
        some (if h.Possessed "CfgTweqJoints".toList then
            (List.range JointCount).foldl (init_joints_onoffctrl_check h) st1
          else st1) := by
  intro parsed st1 hp
  subst hp
  dsimp only
  split <;> rfl

/-- For a non-empty string the result of `init_joints_onoffctrl` is what the
selection stage gives (`st1`), after the AnimC check when the object has
`CfgTweqJoints`. -/
theorem init_joints_onoffctrl_some (h : TweqHost) (joint_smooth : Nat → Bool)
    (joints : List Char) (hne : joints ≠ []) :
    ∃ st1 : (Nat → Bool) × Int,
      init_joints_onoffctrl h joint_smooth (some joints) =
        some (if h.Possessed "CfgTweqJoints".toList then
            (List.range JointCount).foldl (init_joints_onoffctrl_check h) st1
          else st1) := by
  cases joints with
  | nil => exact absurd rfl hne
  | cons c cs =>
    unfold init_joints_onoffctrl
    dsimp only
    have hp : ∃ st1,
        (if (!decide (strcasecmp (c :: cs) "all".toList = 0)) = true then
          init_joints_onoffctrl_loop h (c :: cs).length (c :: cs)
            ((List.range JointCount).foldl
              (fun (st : (Nat → Bool) × Int) joint =>
                (Function.update st.1 joint (decide (strcasecmp (c :: cs) "all".toList = 0)),
                  if decide (strcasecmp (c :: cs) "all".toList = 0) = true then st.2 + 1
                  else st.2))
              (joint_smooth, 0))
        else some ((List.range JointCount).foldl
              (fun (st : (Nat → Bool) × Int) joint =>
                (Function.update st.1 joint (decide (strcasecmp (c :: cs) "all".toList = 0)),
                  if decide (strcasecmp (c :: cs) "all".toList = 0) = true then st.2 + 1
                  else st.2))
              (joint_smooth, 0))) = some st1 := by
      split
      · exact init_joints_onoffctrl_loop_total h _ _ _ (by simp) (le_refl _)
      · exact ⟨_, rfl⟩
    obtain ⟨st1, h1⟩ := hp
    exact ⟨st1, init_joints_onoffctrl_match h _ st1 h1⟩

theorem init_joints_onoffctrl_check_self (h : TweqHost) (st : (Nat → Bool) × Int) (k : Nat)
    (hk : (init_joints_onoffctrl_check h st k).1 k = true) :
    compatible_animc (h.GetInt "CfgTweqJoints".toList (jointAnimCName k)) = true := by
  unfold init_joints_onoffctrl_check at hk
  dsimp only at hk
  split_ifs at hk with h1 h2
  · simp at hk
  · simpa [jointAnimCName] using h2
  · exact absurd hk h1

theorem init_joints_onoffctrl_check_other (h : TweqHost) (st : (Nat → Bool) × Int)
    (k j : Nat) (hjk : j ≠ k) : (init_joints_onoffctrl_check h st k).1 j = st.1 j := by
  unfold init_joints_onoffctrl_check
  dsimp only
  split_ifs with h1 h2 <;> simp [Function.update_noteq hjk]

theorem init_joints_onoffctrl_check_fold (h : TweqHost) (l : List Nat) :
    ∀ (st : (Nat → Bool) × Int) (done : List Nat),
      (∀ j ∈ done, st.1 j = true →
        compatible_animc (h.GetInt "CfgTweqJoints".toList (jointAnimCName j)) = true) →
      ∀ j, (j ∈ done ∨ j ∈ l) → (l.foldl (init_joints_onoffctrl_check h) st).1 j = true →
        compatible_animc (h.GetInt "CfgTweqJoints".toList (jointAnimCName j)) = true := by
  induction l with
  | nil =>
    intro st done hdone j hj hs
    rcases hj with hj | hj
    · exact hdone j hj hs
    · simp at hj
  | cons k rest ih =>
    intro st done hdone j hj hs
    rw [List.foldl_cons] at hs
    apply ih (init_joints_onoffctrl_check h st k) (k :: done) _ j _ hs
    · intro i hi hsi
      by_cases hik : i = k
      · subst hik
        exact init_joints_onoffctrl_check_self h st i hsi
      · have hi2 : i ∈ done := by
          rcases List.mem_cons.mp hi with e | e
          · exact absurd e hik
          · exact e
        rw [init_joints_onoffctrl_check_other h st k i hik] at hsi
        exact hdone i hi2 hsi
    · rcases hj with hj | hj
      · exact Or.inl (List.mem_cons_of_mem _ hj)
      · rcases List.mem_cons.mp hj with e | e
        · exact Or.inl (by rw [e]; exact List.mem_cons_self _ _)
        · exact Or.inr e

theorem compatible_animc_false_of_bits (v : Int)
    (hb : (int_bits v).testBit 0 = true ∨ (int_bits v).testBit 2 = true) :
    compatible_animc v = false := by
  rw [compatible_animc_eq_bits]
  rcases hb with hb | hb
  · rw [hb]
    rfl
  · rw [hb, Bool.or_true]
    rfl

/-- C24: when the AnimC of the object's `CfgTweqRotate` has the `kNoLimit` bit
or the `kWrap` bit set, `do_tweq_rotate` is false after `init_rotate`; and when
the object has `CfgTweqJoints` and the AnimC of a joint has either bit set,
`joint_smooth` is false for that joint after `init_joints_onoffctrl` on any
non-empty joints string. -/
theorem animc_disables_smoothing (h : TweqHost) (s : cScr_TWTweqSmooth)
    (design_note : Option (List Char)) :
    (((int_bits (h.GetInt "CfgTweqRotate".toList "AnimC".toList)).testBit 0 = true ∨
        (int_bits (h.GetInt "CfgTweqRotate".toList "AnimC".toList)).testBit 2 = true) →
      (init_rotate h s design_note).do_tweq_rotate = false) ∧
    (∀ (joint_smooth : Nat → Bool) (joints : List Char) (j : Nat),
      joints ≠ [] → h.Possessed "CfgTweqJoints".toList = true → j < JointCount →
      ((int_bits (h.GetInt "CfgTweqJoints".toList (jointAnimCName j))).testBit 0 = true ∨
        (int_bits (h.GetInt "CfgTweqJoints".toList (jointAnimCName j))).testBit 2 = true) →
      ∃ res : (Nat → Bool) × Int,
        init_joints_onoffctrl h joint_smooth (some joints) = some res ∧ res.1 j = false) := by
  constructor
  · intro hbits
    have hcompat : compatible_animc (h.GetInt "CfgTweqRotate".toList "AnimC".toList) = false :=
      compatible_animc_false_of_bits _ hbits
    have hcs : (if h.Possessed "CfgTweqRotate".toList = true then
        compatible_animc (h.GetInt "CfgTweqRotate".toList "AnimC".toList) else false) = false := by
      rw [hcompat]
      split <;> rfl
    unfold init_rotate
    dsimp only
    rw [hcs]
    rfl
  · intro joint_smooth joints j hne hposs hj hbits
    have hcompat : compatible_animc (h.GetInt "CfgTweqJoints".toList (jointAnimCName j))
        = false := compatible_animc_false_of_bits _ hbits
    obtain ⟨st1, hres⟩ := init_joints_onoffctrl_some h joint_smooth joints hne
    rw [if_pos hposs] at hres
    refine ⟨_, hres, ?_⟩
    cases hv : ((List.range JointCount).foldl (init_joints_onoffctrl_check h) st1).1 j
    · rfl
    · have := init_joints_onoffctrl_check_fold h (List.range JointCount) st1 [] (by simp) j
        (Or.inr (List.mem_range.mpr hj)) hv
      rw [hcompat] at this
      exact absurd this (by simp)

/-- Witness of C24: with `kNoLimit` set in the AnimC of its rotation the object
is not rotation-smoothed; on the example object, whose second joint has `kWrap`
set, the joints string `2,3` leaves the second joint unsmoothed and smooths the
third. -/
theorem animc_disables_smoothing_witness :
    (int_bits (noLimitTweq.GetInt "CfgTweqRotate".toList "AnimC".toList)).testBit 0 = true ∧
    (init_rotate noLimitTweq exampleState (some [])).do_tweq_rotate = false ∧
    (int_bits (exampleTweq.GetInt "CfgTweqJoints".toList (jointAnimCName 1))).testBit 2
      = true ∧
    (init_joints_onoffctrl exampleTweq exampleState.joint_smooth (some str_2_3)).map
      (fun r => (r.1 1, r.1 2, r.2)) = some (false, true, 1) ∧
    ∃ res : (Nat → Bool) × Int,
      init_joints_onoffctrl exampleTweq exampleState.joint_smooth (some str_2_3) = some res ∧
      res.1 1 = false := by
  refine ⟨by decide, ?_, by decide, by decide, ?_⟩
  · exact (animc_disables_smoothing noLimitTweq exampleState (some [])).1 (Or.inl (by decide))
  · exact (animc_disables_smoothing exampleTweq exampleState none).2 exampleState.joint_smooth
      str_2_3 1 (by decide) (by decide) (by decide) (Or.inr (by decide))

theorem init_joints_onoffctrl_total (h : TweqHost) (joint_smooth : Nat → Bool)
    (joints : Option (List Char)) :
    ∃ res, init_joints_onoffctrl h joint_smooth joints = some res := by
  cases joints with
  | none => exact ⟨_, rfl⟩
  | some j =>
    cases j with
    | nil => exact ⟨_, rfl⟩
    | cons c cs =>
      obtain ⟨st1, hst⟩ := init_joints_onoffctrl_some h joint_smooth (c :: cs) (by simp)
      exact ⟨_, hst⟩

theorem init_rotate_rates_kept (h : TweqHost) (s : cScr_TWTweqSmooth)
    (design_note : Option (List Char)) :
    (init_rotate h s design_note).min_rate = s.min_rate ∧
    (init_rotate h s design_note).max_rate = s.max_rate := by
  unfold init_rotate
  dsimp only
  exact ite_motive
    (fun r : cScr_TWTweqSmooth => r.min_rate = s.min_rate ∧ r.max_rate = s.max_rate)
    _ _ _ ⟨rfl, rfl⟩ ⟨rfl, rfl⟩

theorem init_joints_match (h : TweqHost) (s : cScr_TWTweqSmooth)
    (design_note : Option (List Char)) :
    ∀ (r : Option ((Nat → Bool) × Int)), (∃ p, r = some p) →
      ∃ s' : cScr_TWTweqSmooth, (match r with
        | none => none
        | some (joint_smooth, set_count) =>
          if (h.Possessed "CfgTweqJoints".toList &&
              h.Possessed "StTweqJoints".toList && decide (set_count ≠ 0)) = true then
            some { s with
              do_tweq_joints := true
              joint_smooth := joint_smooth
              joint_rates := (List.range JointCount).foldl
                (init_joints_joint h design_note s.min_rate joint_smooth) s.joint_rates }
          else
            some { s with
              do_tweq_joints := false
              joint_smooth := joint_smooth } : Option cScr_TWTweqSmooth) = some s' ∧
        s'.min_rate = s.min_rate ∧ s'.max_rate = s.max_rate := by
  rintro r ⟨⟨joint_smooth, set_count⟩, rfl⟩
  dsimp only
  split
  · exact ⟨_, rfl, rfl, rfl⟩
  · exact ⟨_, rfl, rfl, rfl⟩

theorem init_joints_total (h : TweqHost) (s : cScr_TWTweqSmooth)
    (design_note : Option (List Char)) :
    ∃ s', init_joints h s design_note = some s' ∧
      s'.min_rate = s.min_rate ∧ s'.max_rate = s.max_rate := by
  unfold init_joints
  dsimp only
  apply init_joints_match h s design_note
  split
  · exact init_joints_onoffctrl_total h _ _
  · exact ⟨_, rfl⟩

theorem init_rates (h : TweqHost) (s : cScr_TWTweqSmooth) (note : List Char)
    (hnote : h.GetObjectParams = some note) :
    ∃ s', init h s = some s' ∧
      s'.min_rate =
        get_rate_param h (some note) "TWTweqSmoothMinRate".toList f_0_1 (F32.fin 0) ∧
      s'.max_rate =
        get_rate_param h (some note) "TWTweqSmoothMaxRate".toList (F32.fin 10)
          (get_rate_param h (some note) "TWTweqSmoothMinRate".toList f_0_1 (F32.fin 0)) := by
  unfold init
  rw [hnote]
  dsimp only
  obtain ⟨s3, h3, hmin, hmax⟩ := init_joints_total h
    (init_rotate h
      { clear_timer s with
        warnings := h.GetParamBool (some note) "TWTweqSmoothWarn".toList true
        timer_rate := h.GetParamInt (some note) "TWTweqSmoothTimerRate".toList 250
        min_rate :=
          get_rate_param h (some note) "TWTweqSmoothMinRate".toList f_0_1 (F32.fin 0)
        max_rate :=
          get_rate_param h (some note) "TWTweqSmoothMaxRate".toList (F32.fin 10)
            (get_rate_param h (some note) "TWTweqSmoothMinRate".toList f_0_1 (F32.fin 0)) }
      (some note)) (some note)
  rw [(init_rotate_rates_kept h _ (some note)).1] at hmin
  rw [(init_rotate_rates_kept h _ (some note)).2] at hmax
  rw [h3]
  dsimp only
  split
  · exact ⟨_, rfl, hmin, hmax⟩
  · exact ⟨_, rfl, hmin, hmax⟩

theorem F32.lt_not_nan (a b : F32) (hab : F32.lt a b = true) :
    F32.isNaN a = false ∧ F32.isNaN b = false := by
  cases a <;> cases b <;> simp_all [F32.lt, F32.isNaN]

theorem get_rate_param_ge (h : TweqHost) (design_note : Option (List Char))
    (cfgname : List Char) (default_value minimum : F32)
    (hv : F32.isNaN (h.GetParamFloat design_note cfgname default_value) = false)
    (hm : F32.isNaN minimum = false) :
    F32.ge (get_rate_param h design_note cfgname default_value minimum) minimum = true ∧
    F32.isNaN (get_rate_param h design_note cfgname default_value minimum) = false := by
  unfold get_rate_param
  dsimp only
  split_ifs with hlt
  · exact ⟨F32.ge_self _ hm, hm⟩
  · exact ⟨F32.ge_of_not_lt _ _ hv hm (by simpa using hlt), hv⟩

/-- C26, as stated, fails: with a design note that gives `nan` as
`TWTweqSmoothMinRate`, `get_rate_param` returns the NaN, and after `init` the
default minimum rate is a NaN, which is not greater than or equal to 0. -/
theorem init_nan_min_rate_counterexample :
    nanTweq.GetObjectParams = some [] ∧
    get_rate_param nanTweq (some []) "TWTweqSmoothMinRate".toList f_0_1 (F32.fin 0) = F32.nan ∧
    (init nanTweq exampleState).map (fun s => s.min_rate) = some F32.nan ∧
    F32.ge F32.nan (F32.fin 0) = false := by
  refine ⟨by decide, by decide, by decide, by decide⟩

/-- C26, amended: `get_rate_param` never returns less than its minimum
argument, and returns the parsed value unchanged when that value is at least
the minimum; when neither the parsed value nor the minimum is a NaN it returns
the larger of the two. Consequently, after `init` with a design note in which
the parsed `TWTweqSmoothMinRate` and `TWTweqSmoothMaxRate` are not NaN,
`min_rate >= 0` and `max_rate >= min_rate`. -/
theorem get_rate_param_clamp (h : TweqHost) (design_note : Option (List Char))
    (cfgname : List Char) (default_value minimum : F32) (s : cScr_TWTweqSmooth) :
    F32.lt (get_rate_param h design_note cfgname default_value minimum) minimum = false ∧
    (F32.ge (h.GetParamFloat design_note cfgname default_value) minimum = true →
      get_rate_param h design_note cfgname default_value minimum =
        h.GetParamFloat design_note cfgname default_value) ∧
    (F32.isNaN (h.GetParamFloat design_note cfgname default_value) = false →
      F32.isNaN minimum = false →
      F32.ge (get_rate_param h design_note cfgname default_value minimum) minimum = true ∧
      F32.ge (get_rate_param h design_note cfgname default_value minimum)
        (h.GetParamFloat design_note cfgname default_value) = true ∧
      (get_rate_param h design_note cfgname default_value minimum =
          h.GetParamFloat design_note cfgname default_value ∨
        get_rate_param h design_note cfgname default_value minimum = minimum)) ∧
    (∀ note : List Char, h.GetObjectParams = some note →
      F32.isNaN (h.GetParamFloat (some note) "TWTweqSmoothMinRate".toList f_0_1) = false →
      F32.isNaN (h.GetParamFloat (some note) "TWTweqSmoothMaxRate".toList (F32.fin 10))
        = false →
      ∃ s', init h s = some s' ∧ F32.ge s'.min_rate (F32.fin 0) = true ∧
        F32.ge s'.max_rate s'.min_rate = true) := by
  refine ⟨?_, ?_, ?_, ?_⟩
  · unfold get_rate_param
    dsimp only
    split_ifs with hlt
    · cases hm : F32.lt minimum minimum
      · rfl
      · have := F32.lt_asymm _ _ hm
        rw [hm] at this
        exact absurd this (by simp)
    · simpa using hlt
  · intro hge
    unfold get_rate_param
    dsimp only
    rw [if_neg]
    rw [F32.lt_false_of_ge _ _ hge]
    simp
  · intro hv hm
    refine ⟨(get_rate_param_ge h design_note cfgname default_value minimum hv hm).1, ?_, ?_⟩
    · unfold get_rate_param
      dsimp only
      split_ifs with hlt
      · simp [F32.ge, F32.gt, hlt]
      · exact F32.ge_self _ hv
    · unfold get_rate_param
      dsimp only
      split_ifs with hlt
      · exact Or.inr rfl
      · exact Or.inl rfl
  · intro note hnote hmin hmax
    obtain ⟨s', hs, h1, h2⟩ := init_rates h s note hnote
    have hz : F32.isNaN (F32.fin 0) = false := rfl
    have hminr := get_rate_param_ge h (some note) "TWTweqSmoothMinRate".toList f_0_1
      (F32.fin 0) hmin hz
    have hmaxr := get_rate_param_ge h (some note) "TWTweqSmoothMaxRate".toList (F32.fin 10)
      (get_rate_param h (some note) "TWTweqSmoothMinRate".toList f_0_1 (F32.fin 0))
      hmax hminr.2
    refine ⟨s', hs, ?_, ?_⟩
    · rw [h1]
      exact hminr.1
    · rw [h2, h1]
      exact hmaxr.1

/-- Witness of the amended C26: with a design note that gives 2 as
`TWTweqSmoothMinRate` and 1 as `TWTweqSmoothMaxRate`, the maximum rate is
raised to 2, and after `init` both default rates are 2. -/
theorem get_rate_param_clamp_witness :
    get_rate_param noLimitTweq (some []) "TWTweqSmoothMaxRate".toList (F32.fin 10) (F32.fin 2)
      = F32.fin 2 ∧
    (init noLimitTweq exampleState).map (fun s => (s.min_rate, s.max_rate)) =
      some (F32.fin 2, F32.fin 2) ∧
    ∃ s', init noLimitTweq exampleState = some s' ∧ F32.ge s'.min_rate (F32.fin 0) = true ∧
      F32.ge s'.max_rate s'.min_rate = true := by
  refine ⟨by decide, by decide, ?_⟩
  exact (get_rate_param_clamp noLimitTweq none [] (F32.fin 0) (F32.fin 0) exampleState).2.2.2
    [] (by decide) (by decide) (by decide)

/-- Evaluation for C28: on the example object the joints string `1,1` makes
`init_joints_onoffctrl` return 2 with one joint smoothed, and the string `2,2`,
which names twice a joint with incompatible AnimC flags, makes it return 1 with
no joint smoothed. -/
theorem init_joints_onoffctrl_counts_twice :
    (init_joints_onoffctrl exampleTweq exampleState.joint_smooth (some str_1_1)).map
      (fun r => (r.2, countSet r.1 JointCount)) = some (2, 1) ∧
    (init_joints_onoffctrl exampleTweq exampleState.joint_smooth
        (some ['2', ',', '2'])).map
      (fun r => (r.2, countSet r.1 JointCount)) = some (1, 0) := by
  refine ⟨by decide, by decide⟩

end TWScript
